import Mathlib

/-!
Verification development for the single-sheet Excel → YAML conversion
pipeline (`excel_to_yaml_single.py`).  The spreadsheet-library I/O layer is
out of scope: the core is modelled as a pure function from an ordered list
of raw rows (each a record of the four required columns, already read as
text; a missing cell is supplied as the empty string, matching
`normalize_str(None) = ""`) and a configuration record to a run result.
Numeric limits are modelled over `ℚ`; `to_number_or_none` models Python
`float()` on plain decimal literals (optional sign, digits, at most one
point), which is the numeric syntax the tool's domain uses.
-/

namespace ExcelToYaml

/-- One raw row of the `data` sheet: the four required columns as raw text. -/
structure RawRow where
  typ : String
  id : String
  paymentLimit : String
  comment : String
deriving Repr, DecidableEq

/-- Python `str.strip()`: remove leading and trailing whitespace. -/
def pyStrip (s : String) : String :=
  String.mk (((s.data.dropWhile Char.isWhitespace).reverse.dropWhile Char.isWhitespace).reverse)

/-- ASCII lower-casing of one character (Python `str.lower()` on the
ASCII range the type labels use). -/
def asciiLowerChar (c : Char) : Char :=
  if c.isUpper then Char.ofNat (c.toNat + 32) else c

/-- Python `str.lower()`. -/
def pyLower (s : String) : String :=
  String.mk (s.data.map asciiLowerChar)

/-- `normalize_str`: trim surrounding whitespace (the `None → ""` branch is
handled by the collaborator model supplying `""` for missing cells). -/
def normalize_str (s : String) : String := pyStrip s

/-- The `VALID_TYPES` lookup with default `""`, applied to an
already-lowercased key. -/
def validTypesLookup (s : String) : String :=
  if s = "creditoraccount" then "creditorAccount"
  else if s = "fourthparty" then "fourthParty"
  else ""

/-- `VALID_TYPES.get(normalize_str(s).lower(), "")`. -/
def canonType (s : String) : String :=
  validTypesLookup (pyLower (normalize_str s))

/-- Digit-list to natural number (most significant first); helper for the
decimal parse. -/
def natOfDigits (l : List Char) : Nat :=
  l.foldl (fun a c => a * 10 + (c.toNat - 48)) 0

/-- Split a character list at every point character. -/
def splitOnDot : List Char → List (List Char)
  | [] => [[]]
  | '.' :: cs => [] :: splitOnDot cs
  | c :: cs =>
    match splitOnDot cs with
    | [] => [[c]]
    | h :: t => (c :: h) :: t

/-- Unsigned decimal literal: digits with at most one point, at least one
digit overall. -/
def parseUnsignedDec (l : List Char) : Option ℚ :=
  match splitOnDot l with
  | [ip] =>
      if ip ≠ [] ∧ ip.all Char.isDigit then
        some ((natOfDigits ip : ℚ))
      else none
  | [ip, fp] =>
      if ip.all Char.isDigit ∧ fp.all Char.isDigit ∧ (ip ≠ [] ∨ fp ≠ []) then
        some ((natOfDigits ip : ℚ) + (natOfDigits fp : ℚ) / (10 ^ fp.length))
      else none
  | _ => none

/-- `to_number_or_none`: `float(str(s).strip())`, `None` on failure;
modelled for plain decimal literals over `ℚ`. -/
def to_number_or_none (s : String) : Option ℚ :=
  let t := pyStrip s
  match t.data with
  | '-' :: rest => (parseUnsignedDec rest).map (fun q => -q)
  | '+' :: rest => parseUnsignedDec rest
  | _ => parseUnsignedDec t.data

/-- A normalized row (`df_raw` after the normalization block): `excel_row`
is index + 2, `type_raw` keeps the untouched `type` cell (the code does not
overwrite the `type` column), the other fields are trimmed in place. -/
structure NRow where
  excel_row : Nat
  type_raw : String
  type_norm : String
  id : String
  paymentLimit : String
  comment : String
deriving Repr, DecidableEq

/-- Normalization of one raw row at 0-based index `idx`. -/
def normalizeRow (idx : Nat) (r : RawRow) : NRow :=
  { excel_row := idx + 2
    type_raw := r.typ
    type_norm := canonType r.typ
    id := normalize_str r.id
    paymentLimit := normalize_str r.paymentLimit
    comment := normalize_str r.comment }

/-- The whole normalized table in input order. -/
def normalizedRows (rows : List RawRow) : List NRow :=
  rows.enum.map (fun p => normalizeRow p.1 p.2)

/-- The blank-row predicate of the drop filter: all of
`type_norm, id, paymentLimit, comment` are empty. -/
def isBlankRow (r : NRow) : Bool :=
  r.type_norm == "" && r.id == "" && r.paymentLimit == "" && r.comment == ""

/-- `df`: normalized rows with fully blank rows dropped. -/
def keptRows (rows : List RawRow) : List NRow :=
  (normalizedRows rows).filter (fun r => !isBlankRow r)

/-- `cred`: kept rows of canonical type `creditorAccount`. -/
def credRows (rows : List RawRow) : List NRow :=
  (keptRows rows).filter (fun r => r.type_norm == "creditorAccount")

/-- `fourth`: kept rows of canonical type `fourthParty`. -/
def fourthRows (rows : List RawRow) : List NRow :=
  (keptRows rows).filter (fun r => r.type_norm == "fourthParty")

/-- `bad_type`: kept rows whose type did not canonicalize. -/
def badTypeRows (rows : List RawRow) : List NRow :=
  (keptRows rows).filter (fun r => r.type_norm == "")

/-- `re.sub(r"\s+", "", s)`: remove every whitespace character. -/
def stripWs (s : String) : String :=
  String.mk (s.data.filter (fun c => !c.isWhitespace))

/-- The `nzbn` column of `fourth`. -/
def nzbnOf (r : NRow) : String := stripWs r.id

/-- `fullmatch(r"\d{13}")`: exactly 13 digit characters. -/
def isValidNzbn (s : String) : Bool :=
  s.length == 13 && s.data.all Char.isDigit

/-- `bad_nzbn`: fourth-party rows whose stripped id is not a valid NZBN. -/
def badNzbnRows (rows : List RawRow) : List NRow :=
  (fourthRows rows).filter (fun r => !isValidNzbn (nzbnOf r))

/-- `duplicated(keep=False)` for the fourth-party key space: a row is
flagged iff its stripped id occurs at least twice among fourth rows. -/
def dupNzbnRows (rows : List RawRow) : List NRow :=
  (fourthRows rows).filter
    (fun r => 2 ≤ (fourthRows rows).countP (fun x => nzbnOf x == nzbnOf r))

/-- `duplicated(keep=False)` for the creditor key space (`accountNumber`
is the id verbatim). -/
def dupAcctRows (rows : List RawRow) : List NRow :=
  (credRows rows).filter
    (fun r => 2 ≤ (credRows rows).countP (fun x => x.id == r.id))

/-- The command-line configuration (argparse flags of the tool). -/
structure Config where
  dedupe_accounts : Bool
  dedupe_nzbn : Bool
  fail_on_duplicate_account : Bool
  fail_on_duplicate_nzbn : Bool
  require_numeric_paymentlimit : Bool
  max_creditor : Option ℚ
  max_fourth : Option ℚ
deriving Repr, DecidableEq

/-- The guard of the numeric/threshold block (line 150). -/
def numGate (cfg : Config) : Bool :=
  cfg.require_numeric_paymentlimit || cfg.max_fourth.isSome || cfg.max_creditor.isSome

/-- Rows of `l` whose `paymentLimit` fails the numeric parse. -/
def badNumRows (l : List NRow) : List NRow :=
  l.filter (fun r => (to_number_or_none r.paymentLimit).isNone)

/-- Rows of `l` whose `paymentLimit` parses and strictly exceeds `c`. -/
def overRows (c : ℚ) (l : List NRow) : List NRow :=
  l.filter (fun r =>
    match to_number_or_none r.paymentLimit with
    | some v => decide (c < v)
    | none => false)

/-- One record of the detailed error report (a dict in `error_rows`). -/
structure ErrorRow where
  excel_row : Nat
  typ : String
  id : String
  paymentLimit : String
  reason : String
deriving Repr, DecidableEq

/-- `add_errors`: one error record per row; the `type` field is
`type_norm or type or ""` (first truthy wins). -/
def mkError (reason : String) (r : NRow) : ErrorRow :=
  { excel_row := r.excel_row
    typ := if r.type_norm == "" then r.type_raw else r.type_norm
    id := r.id
    paymentLimit := r.paymentLimit
    reason := reason }

def invalidTypeReason : String :=
  "invalid \x27type\x27 (must be creditorAccount or fourthParty)"

def invalidNzbnReason : String := "invalid NZBN (must be 13 digits)"

def dupNzbnReason : String := "duplicate NZBN"

def dupAcctReason : String := "duplicate accountNumber"

def nonNumericReason : String := "non-numeric paymentLimit"

/-- Rendering of a rational in reason/summary text (models the f-string
interpolation of the float threshold). -/
def ratText (c : ℚ) : String :=
  toString c.num ++ "/" ++ toString c.den

/-- `f"paymentLimit > {max}"`. -/
def ceilingReason (c : ℚ) : String := "paymentLimit > " ++ ratText c

/-- The numeric/threshold block's contribution to `error_rows`, in the
code's accumulation order: fourth non-numeric, fourth over-ceiling,
creditor non-numeric, creditor over-ceiling. -/
def numericErrs (cfg : Config) (rows : List RawRow) : List ErrorRow :=
  if numGate cfg then
    (if cfg.require_numeric_paymentlimit then
      (badNumRows (fourthRows rows)).map (mkError nonNumericReason) else [])
    ++ (match cfg.max_fourth with
        | some c => (overRows c (fourthRows rows)).map (mkError (ceilingReason c))
        | none => [])
    ++ (if cfg.require_numeric_paymentlimit then
      (badNumRows (credRows rows)).map (mkError nonNumericReason) else [])
    ++ (match cfg.max_creditor with
        | some c => (overRows c (credRows rows)).map (mkError (ceilingReason c))
        | none => [])
  else []

/-- `error_rows` in accumulation order. -/
def violationList (cfg : Config) (rows : List RawRow) : List ErrorRow :=
  (badTypeRows rows).map (mkError invalidTypeReason)
  ++ (badNzbnRows rows).map (mkError invalidNzbnReason)
  ++ (dupNzbnRows rows).map (mkError dupNzbnReason)
  ++ (dupAcctRows rows).map (mkError dupAcctReason)
  ++ numericErrs cfg rows

/-- `errors_summary`, in the code's order (numeric block: fourth
non-numeric, creditor non-numeric, fourth over, creditor over). -/
def summaryLines (cfg : Config) (rows : List RawRow) : List String :=
  (if 0 < (badTypeRows rows).length then
    [toString (badTypeRows rows).length ++ " rows have invalid \x27type\x27."] else [])
  ++ (if 0 < (badNzbnRows rows).length then
    [toString (badNzbnRows rows).length
      ++ " fourthParty rows have invalid NZBN (must be 13 digits)."] else [])
  ++ (if 0 < (dupNzbnRows rows).length then
    [toString (dupNzbnRows rows).length ++ " fourthParty rows have duplicate NZBNs."] else [])
  ++ (if 0 < (dupAcctRows rows).length then
    [toString (dupAcctRows rows).length
      ++ " creditorAccount rows have duplicate accountNumbers."] else [])
  ++ (if numGate cfg then
      (if cfg.require_numeric_paymentlimit ∧ 0 < (badNumRows (fourthRows rows)).length then
        [toString (badNumRows (fourthRows rows)).length
          ++ " fourthParty rows have non-numeric paymentLimit."] else [])
      ++ (if cfg.require_numeric_paymentlimit ∧ 0 < (badNumRows (credRows rows)).length then
        [toString (badNumRows (credRows rows)).length
          ++ " creditorAccount rows have non-numeric paymentLimit."] else [])
      ++ (match cfg.max_fourth with
          | some c =>
            if 0 < (overRows c (fourthRows rows)).length then
              [toString (overRows c (fourthRows rows)).length
                ++ " fourthParty rows have paymentLimit > " ++ ratText c ++ "."] else []
          | none => [])
      ++ (match cfg.max_creditor with
          | some c =>
            if 0 < (overRows c (credRows rows)).length then
              [toString (overRows c (credRows rows)).length
                ++ " creditorAccount rows have paymentLimit > " ++ ratText c ++ "."] else []
          | none => [])
    else [])

/-- The sort key comparison `(excel_row, reason)` used by
`sorted(error_rows, key=...)` (lexicographic, total). -/
def errLe (a b : ErrorRow) : Bool :=
  decide (a.excel_row < b.excel_row)
  || (a.excel_row == b.excel_row && decide (a.reason ≤ b.reason))

/-- `error_rows_sorted`. -/
def sortedViolations (cfg : Config) (rows : List RawRow) : List ErrorRow :=
  (violationList cfg rows).mergeSort errLe

/-- `drop_duplicates(keep="first")`: keep a row iff its key was not seen
on an earlier row. -/
def dedupeAux (key : NRow → String) (seen : List String) : List NRow → List NRow
  | [] => []
  | r :: rest =>
    if seen.contains (key r) then dedupeAux key seen rest
    else r :: dedupeAux key (key r :: seen) rest

/-- `drop_duplicates(keep="first")` on a key: keep the first occurrence of
each key, preserving order. -/
def dedupeByKey (key : NRow → String) (l : List NRow) : List NRow :=
  dedupeAux key [] l

/-- The creditor rows handed to the emitter (dedupe applied only on the
success path, controlled by its flag). -/
def acceptedCred (cfg : Config) (rows : List RawRow) : List NRow :=
  if cfg.dedupe_accounts then dedupeByKey (fun r => r.id) (credRows rows)
  else credRows rows

/-- The fourth-party rows handed to the emitter. -/
def acceptedFourth (cfg : Config) (rows : List RawRow) : List NRow :=
  if cfg.dedupe_nzbn then dedupeByKey nzbnOf (fourthRows rows)
  else fourthRows rows

/-- `str.replace` of a quote by a doubled quote, at character level. -/
def escChars : List Char → List Char
  | [] => []
  | c :: cs => if c = '\x27' then '\x27' :: '\x27' :: escChars cs else c :: escChars cs

/-- `qv = str(value).replace("'", "''")`. -/
def escQuote (v : String) : String := String.mk (escChars v.data)

/-- `emit_yaml_line`: `{indent spaces}{key}:'{qv}'`, optional ` #comment`,
trailing newline. -/
def emit_yaml_line (key value : String) (indent : Nat) (comment : String) : String :=
  let qv := escQuote value
  let line := String.mk (List.replicate indent ' ') ++ key ++ ":\x27" ++ qv ++ "\x27"
  let line2 := if comment ≠ "" then line ++ " #" ++ comment else line
  line2 ++ "\n"

/-- Python `str.lstrip()`. -/
def stringLstrip (s : String) : String :=
  String.mk (s.data.dropWhile Char.isWhitespace)

/-- The two output lines of one creditor entry; a row with an empty
account number is skipped (`if not acct: continue`). -/
def credEntry (r : NRow) : String :=
  if r.id == "" then ""
  else
    "  - " ++ stringLstrip (emit_yaml_line "accountNumber" r.id 4 "")
    ++ emit_yaml_line "paymentLimit" r.paymentLimit 6 r.comment

/-- The two output lines of one fourth-party entry; empty stripped NZBN is
skipped. -/
def fourthEntry (r : NRow) : String :=
  if nzbnOf r == "" then ""
  else
    "  - " ++ stringLstrip (emit_yaml_line "nzbn" (nzbnOf r) 4 "")
    ++ emit_yaml_line "paymentLimit" r.paymentLimit 6 r.comment

/-- The full document text assembled in memory before the single write. -/
def emitDocument (cred fourth : List NRow) : String :=
  "creditorAccounts:\n" ++ String.join (cred.map credEntry)
  ++ "fourthParties:\n" ++ String.join (fourth.map fourthEntry)

/-- Outcome of one pipeline invocation after successful ingestion: either
a validation failure carrying the summary and the sorted detailed report,
or success carrying the document text. -/
inductive RunResult where
  | validationFailure (summary : List String) (detailed : List ErrorRow)
  | success (document : String)
deriving Repr, DecidableEq

/-- `sys.exit(1)`: the Excel file could not be opened. -/
def ingestionOpenErrorExit : Nat := 1

/-- `sys.exit(2)`: missing `data` sheet or missing required column. -/
def ingestionSchemaErrorExit : Nat := 2

/-- `sys.exit(3)`: validation failed. -/
def validationFailureExit : Nat := 3

/-- Process exit status of a run result. -/
def exitCodeOf : RunResult → Nat
  | .validationFailure _ _ => validationFailureExit
  | .success _ => 0

/-- The document written by the run, if any (the code opens and writes the
output file only on the success path). -/
def outputDocument : RunResult → Option String
  | .validationFailure _ _ => none
  | .success d => some d

/-- `main` after ingestion: validate; on any error report and exit 3,
otherwise dedupe (if enabled) and emit. -/
def runPipeline (cfg : Config) (rows : List RawRow) : RunResult :=
  if violationList cfg rows ≠ [] then
    .validationFailure (summaryLines cfg rows) (sortedViolations cfg rows)
  else
    .success (emitDocument (acceptedCred cfg rows) (acceptedFourth cfg rows))

/-! ### A reader for the emitted document, used to state the round-trip
property of the Document Emitter. -/

/-- Remove `pre` from the front of the input, or fail. -/
def dropPre : List Char → List Char → Option (List Char)
  | [], l => some l
  | _ :: _, [] => none
  | p :: ps, c :: cs => if c = p then dropPre ps cs else none

/-- Read a quoted value up to its closing quote, undoing the doubling of
embedded quote characters; returns the value and the input that follows
the closing quote. -/
def scanValue : List Char → Option (List Char × List Char)
  | [] => none
  | c :: rest =>
    if c = '\x27' then
      match rest with
      | [] => some ([], [])
      | c2 :: rest2 =>
        if c2 = '\x27' then
          match scanValue rest2 with
          | some (v, r) => some ('\x27' :: v, r)
          | none => none
        else some ([], rest)
    else
      match scanValue rest with
      | some (v, r) => some (c :: v, r)
      | none => none

/-- Discard the rest of the current line, including its newline. -/
def skipLine (l : List Char) : List Char :=
  match l.dropWhile (fun c => !(c == '\n')) with
  | [] => []
  | _ :: r => r

/-- Read at most `fuel` entries of the shape emitted for one record under
the given primary-key name; stops before the first non-entry input. -/
def parseEntries (key : String) : Nat → List Char → List (String × String) × List Char
  | 0, l => ([], l)
  | fuel + 1, l =>
    match dropPre ("  - " ++ key ++ ":\x27").data l with
    | none => ([], l)
    | some l1 =>
      match scanValue l1 with
      | none => ([], l)
      | some (k, l2) =>
        match l2 with
        | '\n' :: l3 =>
          match dropPre "      paymentLimit:\x27".data l3 with
          | none => ([], l)
          | some l4 =>
            match scanValue l4 with
            | none => ([], l)
            | some (pl, l5) =>
              let p := parseEntries key fuel (skipLine l5)
              ((String.mk k, String.mk pl) :: p.1, p.2)
        | _ => ([], l)

/-- Parse the emitted document back into its two sections of
`(primary key, paymentLimit)` pairs. -/
def parseDocument (doc : String) :
    Option (List (String × String) × List (String × String)) :=
  match dropPre "creditorAccounts:\n".data doc.data with
  | none => none
  | some l1 =>
    let pc := parseEntries "accountNumber" l1.length l1
    match dropPre "fourthParties:\n".data pc.2 with
    | none => none
    | some l3 =>
      let pf := parseEntries "nzbn" l3.length l3
      if pf.2 = [] then some (pc.1, pf.1) else none

/-! ## Basic lemmas -/

/-- Two strings with different first characters differ. -/
theorem string_ne_of_head {a b : String} {c₁ c₂ : Char}
    (ha : a.data.head? = some c₁) (hb : b.data.head? = some c₂)
    (hc : c₁ ≠ c₂) : a ≠ b := by
  intro h
  subst h
  rw [ha] at hb
  exact hc (Option.some.inj hb)

/-- A ceiling reason always starts with the letter p. -/
theorem ceilingReason_head (c : ℚ) : (ceilingReason c).data.head? = some 'p' := rfl

theorem ceilingReason_ne_invalidType (c : ℚ) : ceilingReason c ≠ invalidTypeReason :=
  string_ne_of_head (ceilingReason_head c) rfl (by decide)

theorem ceilingReason_ne_invalidNzbn (c : ℚ) : ceilingReason c ≠ invalidNzbnReason :=
  string_ne_of_head (ceilingReason_head c) rfl (by decide)

theorem ceilingReason_ne_dupNzbn (c : ℚ) : ceilingReason c ≠ dupNzbnReason :=
  string_ne_of_head (ceilingReason_head c) rfl (by decide)

theorem ceilingReason_ne_dupAcct (c : ℚ) : ceilingReason c ≠ dupAcctReason :=
  string_ne_of_head (ceilingReason_head c) rfl (by decide)

theorem ceilingReason_ne_nonNumeric (c : ℚ) : ceilingReason c ≠ nonNumericReason :=
  string_ne_of_head (ceilingReason_head c) rfl (by decide)

/-- Every record built by `add_errors` carries the reason it was built with. -/
theorem reason_mkError (R : String) (r : NRow) : (mkError R r).reason = R := rfl

/-- A filter by reason over a segment built with a different reason is empty. -/
theorem filter_reason_map_ne (R R' : String) (q : ErrorRow → Bool) (l : List NRow)
    (h : R ≠ R') :
    (l.map (mkError R)).filter (fun e => e.reason == R' && q e) = [] := by
  rw [List.filter_map]
  have : l.filter ((fun e => e.reason == R' && q e) ∘ mkError R) = [] := by
    apply List.filter_eq_nil_iff.mpr
    intro x _
    simp [mkError, h]
  rw [this, List.map_nil]

/-- Counting by reason over a segment built with a different reason is zero. -/
theorem countP_reason_map_ne (R R' : String) (q : ErrorRow → Bool) (l : List NRow)
    (h : R ≠ R') :
    (l.map (mkError R)).countP (fun e => e.reason == R' && q e) = 0 := by
  rw [List.countP_eq_length_filter, filter_reason_map_ne R R' q l h, List.length_nil]

/-- Rows classified as fourth-party have canonical kind `fourthParty`. -/
theorem type_norm_of_mem_fourthRows {rows : List RawRow} {r : NRow}
    (h : r ∈ fourthRows rows) : r.type_norm = "fourthParty" := by
  have := (List.mem_filter.mp h).2
  simpa using this

/-- Rows classified as creditor have canonical kind `creditorAccount`. -/
theorem type_norm_of_mem_credRows {rows : List RawRow} {r : NRow}
    (h : r ∈ credRows rows) : r.type_norm = "creditorAccount" := by
  have := (List.mem_filter.mp h).2
  simpa using this

/-- The error record of a classified fourth-party row is typed `fourthParty`. -/
theorem mkError_typ_fourth {rows : List RawRow} {r : NRow} (R : String)
    (h : r ∈ fourthRows rows) : (mkError R r).typ = "fourthParty" := by
  simp [mkError, type_norm_of_mem_fourthRows h]

/-- The error record of a classified creditor row is typed `creditorAccount`. -/
theorem mkError_typ_cred {rows : List RawRow} {r : NRow} (R : String)
    (h : r ∈ credRows rows) : (mkError R r).typ = "creditorAccount" := by
  simp [mkError, type_norm_of_mem_credRows h]

/-- The reason of any record of a mapped segment. -/
theorem reason_of_mem_map_mkError {R : String} {l : List NRow} {e : ErrorRow}
    (h : e ∈ l.map (mkError R)) : e.reason = R := by
  obtain ⟨x, -, rfl⟩ := List.mem_map.mp h
  rfl

/-- Any record of the numeric/threshold block carries a non-numeric or a
ceiling reason. -/
theorem reason_of_mem_numericErrs {cfg : Config} {rows : List RawRow} {e : ErrorRow}
    (h : e ∈ numericErrs cfg rows) :
    e.reason = nonNumericReason ∨ ∃ c, e.reason = ceilingReason c := by
  unfold numericErrs at h
  by_cases hg : numGate cfg = true
  · rw [if_pos hg] at h
    simp only [List.mem_append] at h
    rcases h with ((h | h) | h) | h
    · split at h
      · exact Or.inl (reason_of_mem_map_mkError h)
      · simp at h
    · rcases hmf : cfg.max_fourth with _ | c
      · rw [hmf] at h; simp at h
      · rw [hmf] at h
        exact Or.inr ⟨c, reason_of_mem_map_mkError h⟩
    · split at h
      · exact Or.inl (reason_of_mem_map_mkError h)
      · simp at h
    · rcases hmc : cfg.max_creditor with _ | c
      · rw [hmc] at h; simp at h
      · rw [hmc] at h
        exact Or.inr ⟨c, reason_of_mem_map_mkError h⟩
  · rw [if_neg hg] at h
    simp at h

/-- A violation whose reason is the invalid-NZBN reason comes from the
NZBN-format segment. -/
theorem mem_badNzbn_seg_of_reason {cfg : Config} {rows : List RawRow} {e : ErrorRow}
    (h : e ∈ violationList cfg rows) (hr : e.reason = invalidNzbnReason) :
    e ∈ (badNzbnRows rows).map (mkError invalidNzbnReason) := by
  simp only [violationList, List.mem_append] at h
  rcases h with (((h | h) | h) | h) | h
  · have h' := reason_of_mem_map_mkError h
    rw [hr] at h'
    exact absurd h' (by decide)
  · exact h
  · have h' := reason_of_mem_map_mkError h
    rw [hr] at h'
    exact absurd h' (by decide)
  · have h' := reason_of_mem_map_mkError h
    rw [hr] at h'
    exact absurd h' (by decide)
  · rcases reason_of_mem_numericErrs h with h' | ⟨c, h'⟩
    · rw [hr] at h'
      exact absurd h' (by decide)
    · rw [hr] at h'
      exact absurd h'.symm (ceilingReason_ne_invalidNzbn c)

/-- Characterization of the ceiling filter: a row is flagged iff it is in
the list, its limit parses, and the value strictly exceeds the ceiling. -/
theorem mem_overRows_iff (c : ℚ) (l : List NRow) (r : NRow) :
    r ∈ overRows c l ↔
      r ∈ l ∧ ∃ v, to_number_or_none r.paymentLimit = some v ∧ c < v := by
  simp only [overRows, List.mem_filter]
  constructor
  · rintro ⟨h1, h2⟩
    refine ⟨h1, ?_⟩
    rcases hp : to_number_or_none r.paymentLimit with _ | v
    · rw [hp] at h2
      simp at h2
    · rw [hp] at h2
      exact ⟨v, rfl, of_decide_eq_true h2⟩
  · rintro ⟨h1, v, hv, hc⟩
    refine ⟨h1, ?_⟩
    rw [hv]
    exact decide_eq_true hc

/-- A segment count is zero when the predicate rejects every record the
segment can build. -/
theorem countP_map_mkError_zero (R : String) (p : ErrorRow → Bool) (l : List NRow)
    (h : ∀ r ∈ l, p (mkError R r) = false) :
    (l.map (mkError R)).countP p = 0 := by
  rw [List.countP_map]
  apply Nat.eq_zero_of_le_zero
  rw [Nat.le_zero, List.countP_eq_zero]
  intro r hr
  simp [Function.comp, h r hr]

/-- A segment count is full when the predicate accepts every record the
segment builds. -/
theorem countP_map_mkError_full (R : String) (p : ErrorRow → Bool) (l : List NRow)
    (h : ∀ r ∈ l, p (mkError R r) = true) :
    (l.map (mkError R)).countP p = l.length := by
  rw [List.countP_map]
  apply List.countP_eq_length.mpr
  intro r hr
  simp [Function.comp, h r hr]

/-- The numeric block contributes nothing to a count by a reason that is
neither the non-numeric reason nor any ceiling reason. -/
theorem countP_numericErrs_zero (cfg : Config) (rows : List RawRow)
    (p : ErrorRow → Bool)
    (h : ∀ e ∈ numericErrs cfg rows, p e = false) :
    (numericErrs cfg rows).countP p = 0 := by
  apply Nat.eq_zero_of_le_zero
  rw [Nat.le_zero, List.countP_eq_zero]
  intro e he
  simp [h e he]

/-- Restricting the duplicate-flagged rows to one key recovers every
occurrence of that key, provided the key is indeed repeated. -/
theorem dup_filter_key_length (l : List NRow) (key : NRow → String) (k : String)
    (h : 2 ≤ l.countP (fun x => key x == k)) :
    ((l.filter (fun r => decide (2 ≤ l.countP (fun x => key x == key r)))).filter
        (fun r => key r == k)).length
      = l.countP (fun x => key x == k) := by
  rw [List.filter_filter]
  have hcong : l.filter (fun r => (key r == k) &&
        decide (2 ≤ l.countP (fun x => key x == key r)))
      = l.filter (fun r => key r == k) := by
    apply List.filter_congr
    intro r _
    by_cases hk : key r = k
    · have hcnt : l.countP (fun x => key x == key r)
          = l.countP (fun x => key x == k) := by rw [hk]
      simp [hk, hcnt, h]
    · simp [hk]
  rw [hcong, List.countP_eq_length_filter]

/-! ## Round-trip lemmas for the emitted document -/

/-- Scanning a quoted value undoes the quote doubling, provided the text
after the closing quote does not itself begin with a quote. -/
theorem scanValue_esc (v rest : List Char) (h : rest.head? ≠ some '\x27') :
    scanValue (escChars v ++ '\x27' :: rest) = some (v, rest) := by
  induction v with
  | nil =>
    cases rest with
    | nil => rfl
    | cons c2 rest2 =>
      have hc : ¬ c2 = '\x27' := by simpa using h
      rw [show escChars [] ++ '\x27' :: c2 :: rest2 = '\x27' :: c2 :: rest2 from rfl,
        scanValue.eq_def]
      simp [hc]
  | cons c cs ih =>
    by_cases hc : c = '\x27'
    · subst hc
      rw [show escChars ('\x27' :: cs) ++ '\x27' :: rest
          = '\x27' :: '\x27' :: (escChars cs ++ '\x27' :: rest) from by
        simp [escChars], scanValue.eq_def]
      simp [ih]
    · rw [show escChars (c :: cs) ++ '\x27' :: rest
          = c :: (escChars cs ++ '\x27' :: rest) from by
        simp [escChars, hc], scanValue.eq_def]
      simp [hc, ih]

/-- Removing a present leading pattern succeeds. -/
theorem dropPre_append (p rest : List Char) : dropPre p (p ++ rest) = some rest := by
  induction p with
  | nil => rfl
  | cons c cs ih => simp [dropPre, ih]

/-- Dropping up to the first newline of a newline-free block. -/
theorem dropWhile_til_nl (l rest : List Char) (h : '\n' ∉ l) :
    (l ++ '\n' :: rest).dropWhile (fun c => !(c == '\n')) = '\n' :: rest := by
  induction l with
  | nil => simp
  | cons c cs ih =>
    simp only [List.mem_cons, not_or] at h
    have hc : ('\n' = c) = False := by simp [h.1]
    simp only [List.cons_append, List.dropWhile_cons]
    rw [show (!(c == '\n')) = true from by
      cases hb : (c == '\n') with
      | true => exact absurd (beq_iff_eq.mp hb).symm h.1
      | false => rfl]
    simp only [if_true]
    exact ih h.2

/-- `skipLine` discards exactly the current line. -/
theorem skipLine_append (l rest : List Char) (h : '\n' ∉ l) :
    skipLine (l ++ '\n' :: rest) = rest := by
  unfold skipLine
  rw [dropWhile_til_nl l rest h]

/-- `parseEntries` stops cleanly on input that opens with no entry. -/
theorem parseEntries_stop (key : String) (fuel : Nat) (l : List Char)
    (h : dropPre ("  - " ++ key ++ ":\x27").data l = none) :
    parseEntries key fuel l = ([], l) := by
  cases fuel with
  | zero => rfl
  | succ f =>
    have h' : dropPre (' ' :: ' ' :: '-' :: ' ' :: (key.data ++ [':', '\x27'])) l = none := by
      rw [show (' ' :: ' ' :: '-' :: ' ' :: (key.data ++ [':', '\x27']))
          = ("  - " ++ key ++ ":\x27").data from by simp]
      exact h
    simp [parseEntries, h']

/-- The entry-opening line of a creditor entry after left-stripping. -/
theorem lstrip_emit_account (v : String) :
    (stringLstrip (emit_yaml_line "accountNumber" v 4 "")).data
      = "accountNumber:\x27".data ++ ((escChars v.data ++ ['\x27']) ++ ['\n']) := rfl

/-- The entry-opening line of a fourth-party entry after left-stripping. -/
theorem lstrip_emit_nzbn (v : String) :
    (stringLstrip (emit_yaml_line "nzbn" v 4 "")).data
      = "nzbn:\x27".data ++ ((escChars v.data ++ ['\x27']) ++ ['\n']) := rfl

/-- The limit line with no comment. -/
theorem emit_pl_data_empty (pl : String) :
    (emit_yaml_line "paymentLimit" pl 6 "").data
      = "      paymentLimit:\x27".data ++ ((escChars pl.data ++ ['\x27']) ++ ['\n']) := rfl

/-- The limit line with a trailing comment annotation. -/
theorem emit_pl_data_comment (pl cmt : String) (h : ¬ cmt = "") :
    (emit_yaml_line "paymentLimit" pl 6 cmt).data
      = "      paymentLimit:\x27".data
        ++ ((((escChars pl.data ++ ['\x27']) ++ [' ', '#']) ++ cmt.data) ++ ['\n']) := by
  simp only [emit_yaml_line, if_pos h]
  rfl

/-- The full character stream of one creditor entry. -/
theorem credEntry_data (r : NRow) (h : r.id ≠ "") :
    (credEntry r).data
      = ("  - " ++ "accountNumber" ++ ":\x27").data
        ++ (escChars r.id.data ++ ('\x27' :: '\n' :: ("      paymentLimit:\x27".data
          ++ (escChars r.paymentLimit.data ++ ('\x27' ::
            ((if r.comment = "" then [] else ' ' :: '#' :: r.comment.data)
              ++ ['\n'])))))) := by
  rw [credEntry, if_neg (by simp [h] : ¬ (r.id == "") = true)]
  rw [show ("  - " ++ stringLstrip (emit_yaml_line "accountNumber" r.id 4 "")
        ++ emit_yaml_line "paymentLimit" r.paymentLimit 6 r.comment).data
      = ("  - ".data ++ (stringLstrip (emit_yaml_line "accountNumber" r.id 4 "")).data)
        ++ (emit_yaml_line "paymentLimit" r.paymentLimit 6 r.comment).data
    from by simp only [String.data_append]]
  rw [lstrip_emit_account r.id,
    show ("  - " ++ "accountNumber" ++ ":\x27").data
      = "  - ".data ++ "accountNumber:\x27".data from rfl]
  by_cases hcm : r.comment = ""
  · rw [hcm, emit_pl_data_empty]
    simp [List.append_assoc]
  · rw [emit_pl_data_comment r.paymentLimit r.comment hcm]
    simp [List.append_assoc, hcm]

/-- The full character stream of one fourth-party entry. -/
theorem fourthEntry_data (r : NRow) (h : nzbnOf r ≠ "") :
    (fourthEntry r).data
      = ("  - " ++ "nzbn" ++ ":\x27").data
        ++ (escChars (nzbnOf r).data ++ ('\x27' :: '\n' :: ("      paymentLimit:\x27".data
          ++ (escChars r.paymentLimit.data ++ ('\x27' ::
            ((if r.comment = "" then [] else ' ' :: '#' :: r.comment.data)
              ++ ['\n'])))))) := by
  rw [fourthEntry, if_neg (by simp [h] : ¬ (nzbnOf r == "") = true)]
  rw [show ("  - " ++ stringLstrip (emit_yaml_line "nzbn" (nzbnOf r) 4 "")
        ++ emit_yaml_line "paymentLimit" r.paymentLimit 6 r.comment).data
      = ("  - ".data ++ (stringLstrip (emit_yaml_line "nzbn" (nzbnOf r) 4 "")).data)
        ++ (emit_yaml_line "paymentLimit" r.paymentLimit 6 r.comment).data
    from by simp only [String.data_append]]
  rw [lstrip_emit_nzbn (nzbnOf r),
    show ("  - " ++ "nzbn" ++ ":\x27").data
      = "  - ".data ++ "nzbn:\x27".data from rfl]
  by_cases hcm : r.comment = ""
  · rw [hcm, emit_pl_data_empty]
    simp [List.append_assoc]
  · rw [emit_pl_data_comment r.paymentLimit r.comment hcm]
    simp [List.append_assoc, hcm]

/-- Reading one emitted entry consumes it and yields its two fields. -/
theorem parseEntries_step (key : String) (fuel : Nat) (k pl cmtpart rest : List Char)
    (hq : cmtpart.head? ≠ some '\x27')
    (hcmt : '\n' ∉ cmtpart) :
    parseEntries key (fuel + 1)
      (("  - " ++ key ++ ":\x27").data
        ++ (escChars k ++ ('\x27' :: '\n' :: ("      paymentLimit:\x27".data
          ++ (escChars pl ++ ('\x27' :: (cmtpart ++ '\n' :: rest)))))))
      = ((String.mk k, String.mk pl) :: (parseEntries key fuel rest).1,
         (parseEntries key fuel rest).2) := by
  have hs1 : scanValue (escChars k ++ '\x27' :: '\n' :: ("      paymentLimit:\x27".data
        ++ (escChars pl ++ ('\x27' :: (cmtpart ++ '\n' :: rest)))))
      = some (k, '\n' :: ("      paymentLimit:\x27".data
        ++ (escChars pl ++ ('\x27' :: (cmtpart ++ '\n' :: rest))))) :=
    scanValue_esc _ _ (by
      intro hcon
      rw [List.head?_cons] at hcon
      exact absurd (Option.some.inj hcon) (by decide))
  have hs2 : scanValue (escChars pl ++ '\x27' :: (cmtpart ++ '\n' :: rest))
      = some (pl, cmtpart ++ '\n' :: rest) :=
    scanValue_esc _ _ (by
      cases cmtpart with
      | nil =>
        intro hcon
        rw [List.nil_append, List.head?_cons] at hcon
        exact absurd (Option.some.inj hcon) (by decide)
      | cons c cs =>
        intro hcon
        rw [List.cons_append, List.head?_cons] at hcon
        exact hq (by rw [List.head?_cons, Option.some.inj hcon]))
  have hs3 : skipLine (cmtpart ++ '\n' :: rest) = rest := skipLine_append _ _ hcmt
  simp only [parseEntries, dropPre_append, hs1, hs2, hs3]

/-- Character stream of a fold of string appends. -/
theorem data_foldl_append (L : List String) (acc : String) :
    (L.foldl (· ++ ·) acc).data = acc.data ++ (L.map String.data).flatten := by
  induction L generalizing acc with
  | nil => simp
  | cons s ss ih => simp [ih, List.append_assoc]

/-- Character stream of a joined list of strings. -/
theorem data_join (L : List String) :
    (String.join L).data = (L.map String.data).flatten := by
  simp [String.join, data_foldl_append]

/-- A flattened list of non-empty blocks is at least as long as the list. -/
theorem length_le_flatten (L : List (List Char)) (h : ∀ x ∈ L, x ≠ []) :
    L.length ≤ L.flatten.length := by
  induction L with
  | nil => simp
  | cons x xs ih =>
    simp only [List.flatten_cons, List.length_append, List.length_cons]
    have hx : 1 ≤ x.length := by
      have hne := h x (List.mem_cons_self x xs)
      cases x with
      | nil => simp at hne
      | cons _ _ => simp
    have := ih (fun y hy => h y (List.mem_cons_of_mem _ hy))
    omega

/-- Reading a whole emitted section: every entry is recovered in order and
the input after the section is left untouched. -/
theorem parseEntries_join (key : String) (kv : NRow → String) (entry : NRow → String)
    (l : List NRow) (tail : List Char) (fuel : Nat)
    (hfuel : l.length ≤ fuel)
    (hentry : ∀ r ∈ l, (entry r).data
      = ("  - " ++ key ++ ":\x27").data
        ++ (escChars (kv r).data ++ ('\x27' :: '\n' :: ("      paymentLimit:\x27".data
          ++ (escChars r.paymentLimit.data ++ ('\x27' ::
            ((if r.comment = "" then [] else ' ' :: '#' :: r.comment.data) ++ ['\n'])))))))
    (hcm : ∀ r ∈ l, '\n' ∉ r.comment.data)
    (htail : dropPre ("  - " ++ key ++ ":\x27").data tail = none) :
    parseEntries key fuel ((String.join (l.map entry)).data ++ tail)
      = (l.map (fun r => (kv r, r.paymentLimit)), tail) := by
  induction l generalizing fuel with
  | nil =>
    rw [show (String.join (([] : List NRow).map entry)).data ++ tail = tail from by
      simp [data_join]]
    rw [parseEntries_stop key fuel tail htail]
    simp
  | cons r rs ih =>
    obtain ⟨f, rfl⟩ : ∃ f, fuel = f + 1 := by
      cases fuel with
      | zero => simp at hfuel
      | succ f => exact ⟨f, rfl⟩
    have hf : rs.length ≤ f := by
      simp only [List.length_cons] at hfuel
      omega
    have hd : (String.join ((r :: rs).map entry)).data ++ tail
        = ("  - " ++ key ++ ":\x27").data
          ++ (escChars (kv r).data ++ ('\x27' :: '\n' :: ("      paymentLimit:\x27".data
            ++ (escChars r.paymentLimit.data ++ ('\x27' ::
              ((if r.comment = "" then [] else ' ' :: '#' :: r.comment.data)
                ++ '\n' :: ((String.join (rs.map entry)).data ++ tail))))))) := by
      rw [show (String.join ((r :: rs).map entry)).data
            = (entry r).data ++ (String.join (rs.map entry)).data from by
        simp [data_join]]
      rw [hentry r (List.mem_cons_self r rs)]
      simp [List.append_assoc]
    rw [hd, parseEntries_step key f (kv r).data r.paymentLimit.data _ _
      (by split
          · simp
          · simp only [List.head?_cons]
            intro hcon
            exact absurd (Option.some.inj hcon) (by decide))
      (by split
          · simp
          · rename_i hne
            have := hcm r (List.mem_cons_self r rs)
            simp [this])]
    rw [ih f hf (fun x hx => hentry x (List.mem_cons_of_mem _ hx))
      (fun x hx => hcm x (List.mem_cons_of_mem _ hx))]
    rfl

/-- The two-section structure of the emitted document. -/
theorem emitDocument_data (cred fourth : List NRow) :
    (emitDocument cred fourth).data
      = "creditorAccounts:\n".data
        ++ ((String.join (cred.map credEntry)).data
          ++ ("fourthParties:\n".data ++ (String.join (fourth.map fourthEntry)).data)) := by
  simp [emitDocument, List.append_assoc]

/-- Reading back a whole emitted document recovers the records of both
sections in order, provided every primary key is non-empty and no comment
embeds a newline. -/
theorem parse_emitDocument (cred fourth : List NRow)
    (hc : ∀ r ∈ cred, r.id ≠ "" ∧ '\n' ∉ r.comment.data)
    (hf : ∀ r ∈ fourth, nzbnOf r ≠ "" ∧ '\n' ∉ r.comment.data) :
    parseDocument (emitDocument cred fourth)
      = some (cred.map (fun r => (r.id, r.paymentLimit)),
              fourth.map (fun r => (nzbnOf r, r.paymentLimit))) := by
  have hlen1 : cred.length
      ≤ ((String.join (cred.map credEntry)).data
        ++ ("fourthParties:\n".data ++ (String.join (fourth.map fourthEntry)).data)).length := by
    have hne : ∀ x ∈ (cred.map credEntry).map String.data, x ≠ [] := by
      intro x hx
      obtain ⟨s, hs, rfl⟩ := List.mem_map.mp hx
      obtain ⟨r, hr, rfl⟩ := List.mem_map.mp hs
      rw [credEntry_data r (hc r hr).1]
      simp
    have h1 := length_le_flatten _ hne
    rw [← data_join] at h1
    simp only [List.length_map] at h1
    rw [List.length_append]
    omega
  have hlen2 : fourth.length ≤ (String.join (fourth.map fourthEntry)).data.length := by
    have hne : ∀ x ∈ (fourth.map fourthEntry).map String.data, x ≠ [] := by
      intro x hx
      obtain ⟨s, hs, rfl⟩ := List.mem_map.mp hx
      obtain ⟨r, hr, rfl⟩ := List.mem_map.mp hs
      rw [fourthEntry_data r (hf r hr).1]
      simp
    have h1 := length_le_flatten _ hne
    rw [← data_join] at h1
    simp only [List.length_map] at h1
    omega
  have h1 := parseEntries_join "accountNumber" (fun r => r.id) credEntry cred
    ("fourthParties:\n".data ++ (String.join (fourth.map fourthEntry)).data)
    ((String.join (cred.map credEntry)).data
      ++ ("fourthParties:\n".data ++ (String.join (fourth.map fourthEntry)).data)).length
    hlen1
    (fun r hr => credEntry_data r (hc r hr).1)
    (fun r hr => (hc r hr).2)
    rfl
  have h3 := parseEntries_join "nzbn" nzbnOf fourthEntry fourth []
    (String.join (fourth.map fourthEntry)).data.length
    hlen2
    (fun r hr => fourthEntry_data r (hf r hr).1)
    (fun r hr => (hf r hr).2)
    rfl
  rw [List.append_nil] at h3
  have h2 := dropPre_append "fourthParties:\n".data
    (String.join (fourth.map fourthEntry)).data
  simp only [parseDocument, emitDocument_data, dropPre_append, h1, h2, h3]
  simp

/-! ## Claims -/

/-- C1: whenever the violation set is non-empty the run produces no output
document at all (the document writer runs only on the success branch), and
it signals validation failure with exit status 3, distinct from both
ingestion-error statuses (1 and 2). -/
theorem c1_total_failure (cfg : Config) (rows : List RawRow)
    (h : violationList cfg rows ≠ []) :
    runPipeline cfg rows
      = .validationFailure (summaryLines cfg rows) (sortedViolations cfg rows) ∧
    outputDocument (runPipeline cfg rows) = none ∧
    exitCodeOf (runPipeline cfg rows) = validationFailureExit ∧
    validationFailureExit ≠ ingestionOpenErrorExit ∧
    validationFailureExit ≠ ingestionSchemaErrorExit := by
  have hrun : runPipeline cfg rows
      = .validationFailure (summaryLines cfg rows) (sortedViolations cfg rows) := by
    unfold runPipeline
    exact if_pos h
  exact ⟨hrun, by rw [hrun]; rfl, by rw [hrun]; rfl, by decide, by decide⟩

theorem c1_total_failure_witness :
    violationList ⟨false, false, false, false, false, none, none⟩
      [⟨"fourthParty", "9999999999999", "1", ""⟩,
       ⟨"fourthParty", "9999999999999", "2", ""⟩] ≠ [] ∧
    outputDocument (runPipeline ⟨false, false, false, false, false, none, none⟩
      [⟨"fourthParty", "9999999999999", "1", ""⟩,
       ⟨"fourthParty", "9999999999999", "2", ""⟩]) = none :=
  ⟨by decide, (c1_total_failure _ _ (by decide)).2.1⟩

/-- C8: when the violation set is non-empty, the run result (failure kind,
summary, detailed list) does not depend on the two dedupe flags in any
way: dedupe runs only on the success branch. -/
theorem c8_dedupe_flags_inert_on_failure (cfg : Config) (rows : List RawRow)
    (h : violationList cfg rows ≠ []) (b₁ b₂ b₃ b₄ : Bool) :
    runPipeline { cfg with dedupe_accounts := b₁, dedupe_nzbn := b₂ } rows
      = runPipeline { cfg with dedupe_accounts := b₃, dedupe_nzbn := b₄ } rows := by
  have h₁ : runPipeline { cfg with dedupe_accounts := b₁, dedupe_nzbn := b₂ } rows
      = .validationFailure (summaryLines cfg rows) (sortedViolations cfg rows) := by
    unfold runPipeline
    exact if_pos h
  have h₂ : runPipeline { cfg with dedupe_accounts := b₃, dedupe_nzbn := b₄ } rows
      = .validationFailure (summaryLines cfg rows) (sortedViolations cfg rows) := by
    unfold runPipeline
    exact if_pos h
  rw [h₁, h₂]

theorem c8_dedupe_flags_inert_on_failure_witness :
    violationList ⟨false, false, false, false, false, none, none⟩
      [⟨"fourthParty", "9999999999999", "1", ""⟩,
       ⟨"fourthParty", "9999999999999", "2", ""⟩] ≠ [] ∧
    runPipeline ⟨false, true, false, false, false, none, none⟩
      [⟨"fourthParty", "9999999999999", "1", ""⟩,
       ⟨"fourthParty", "9999999999999", "2", ""⟩]
      = runPipeline ⟨false, false, false, false, false, none, none⟩
      [⟨"fourthParty", "9999999999999", "1", ""⟩,
       ⟨"fourthParty", "9999999999999", "2", ""⟩] :=
  ⟨by decide,
    c8_dedupe_flags_inert_on_failure ⟨false, false, false, false, false, none, none⟩
      _ (by decide) false true false false⟩

/-- C9: the two fail-on-duplicate flags are parsed but never read: every
observable of the run (violations, summary, sorted report, run result,
exit status, output document) is unchanged under any setting of them. -/
theorem c9_fail_flags_never_read (cfg : Config) (rows : List RawRow) (b₁ b₂ : Bool) :
    violationList
        { cfg with fail_on_duplicate_account := b₁, fail_on_duplicate_nzbn := b₂ } rows
      = violationList cfg rows ∧
    summaryLines
        { cfg with fail_on_duplicate_account := b₁, fail_on_duplicate_nzbn := b₂ } rows
      = summaryLines cfg rows ∧
    sortedViolations
        { cfg with fail_on_duplicate_account := b₁, fail_on_duplicate_nzbn := b₂ } rows
      = sortedViolations cfg rows ∧
    runPipeline
        { cfg with fail_on_duplicate_account := b₁, fail_on_duplicate_nzbn := b₂ } rows
      = runPipeline cfg rows ∧
    exitCodeOf (runPipeline
        { cfg with fail_on_duplicate_account := b₁, fail_on_duplicate_nzbn := b₂ } rows)
      = exitCodeOf (runPipeline cfg rows) ∧
    outputDocument (runPipeline
        { cfg with fail_on_duplicate_account := b₁, fail_on_duplicate_nzbn := b₂ } rows)
      = outputDocument (runPipeline cfg rows) :=
  ⟨rfl, rfl, rfl, rfl, rfl, rfl⟩

/-- C2, counterexample to the claim as stated: a row whose raw kind text is
non-empty but unrecognized, with identifier, limit and comment all empty,
is dropped by the blank-row filter (which tests the canonicalized kind, not
the raw kind text), so the run produces no violation at all — not an
invalid-type violation. -/
theorem c2_counterexample :
    canonType "bogus" = "" ∧ ("bogus" : String) ≠ "" ∧
    violationList ⟨false, false, false, false, false, none, none⟩
      [⟨"bogus", "", "", ""⟩] = [] ∧
    runPipeline ⟨false, false, false, false, false, none, none⟩
      [⟨"bogus", "", "", ""⟩]
      = .success "creditorAccounts:\nfourthParties:\n" := by decide

/-- C2 (amended): blankness is judged on the canonical kind: a normalized
row is dropped silently iff its canonical kind is `Unrecognized` (empty
`type_norm`) and its identifier, limit text and comment are all empty;
every non-dropped row with `Unrecognized` kind yields an invalid-type
violation. -/
theorem c2_blank_rule_and_type_violation (cfg : Config) (rows : List RawRow)
    (r : NRow) (hr : r ∈ normalizedRows rows) :
    (isBlankRow r = true ↔
      r.type_norm = "" ∧ r.id = "" ∧ r.paymentLimit = "" ∧ r.comment = "") ∧
    (isBlankRow r = true → r ∉ keptRows rows) ∧
    (isBlankRow r = false → r ∈ keptRows rows) ∧
    (r.type_norm = "" → isBlankRow r = false →
      mkError invalidTypeReason r ∈ violationList cfg rows) := by
  refine ⟨?_, ?_, ?_, ?_⟩
  · simp only [isBlankRow, Bool.and_eq_true, beq_iff_eq]
    tauto
  · intro hb hmem
    have := (List.mem_filter.mp hmem).2
    rw [hb] at this
    simp at this
  · intro hb
    exact List.mem_filter.mpr ⟨hr, by rw [hb]; rfl⟩
  · intro ht hb
    have hk : r ∈ keptRows rows := List.mem_filter.mpr ⟨hr, by rw [hb]; rfl⟩
    have hbt : r ∈ badTypeRows rows :=
      List.mem_filter.mpr ⟨hk, by simp [ht]⟩
    have : mkError invalidTypeReason r
        ∈ (badTypeRows rows).map (mkError invalidTypeReason) :=
      List.mem_map_of_mem _ hbt
    simp only [violationList, List.mem_append]
    exact Or.inl (Or.inl (Or.inl (Or.inl this)))

/-- C5: a fourth-party row yields an invalid-identifier-format violation
exactly when its identifier, stripped of internal whitespace, fails the
13-digit pattern; the check is independent of the duplicate check, so a
row that is both malformed and duplicated receives both violations. -/
theorem c5_nzbn_format_independent (cfg : Config) (rows : List RawRow) (r : NRow)
    (hr : r ∈ fourthRows rows) :
    (mkError invalidNzbnReason r ∈ violationList cfg rows ↔
      isValidNzbn (stripWs r.id) = false) ∧
    (isValidNzbn (stripWs r.id) = false →
      2 ≤ (fourthRows rows).countP (fun x => nzbnOf x == nzbnOf r) →
      mkError invalidNzbnReason r ∈ violationList cfg rows ∧
      mkError dupNzbnReason r ∈ violationList cfg rows) := by
  have hmemInv : isValidNzbn (stripWs r.id) = false →
      mkError invalidNzbnReason r ∈ violationList cfg rows := by
    intro hbad
    have hb : r ∈ badNzbnRows rows := by
      refine List.mem_filter.mpr ⟨hr, ?_⟩
      simp [nzbnOf, hbad]
    have : mkError invalidNzbnReason r
        ∈ (badNzbnRows rows).map (mkError invalidNzbnReason) :=
      List.mem_map_of_mem _ hb
    simp only [violationList, List.mem_append]
    exact Or.inl (Or.inl (Or.inl (Or.inr this)))
  refine ⟨⟨?_, hmemInv⟩, ?_⟩
  · intro hmem
    have hseg := mem_badNzbn_seg_of_reason hmem rfl
    obtain ⟨x, hx, hxe⟩ := List.mem_map.mp hseg
    have hid : x.id = r.id := by
      have := (ErrorRow.mk.injEq _ _ _ _ _ _ _ _ _ _).mp hxe
      exact this.2.2.1
    have hxbad := (List.mem_filter.mp hx).2
    rw [Bool.not_eq_eq_eq_not] at hxbad
    simpa [nzbnOf, hid] using hxbad
  · intro hbad hdup
    refine ⟨hmemInv hbad, ?_⟩
    have hd : r ∈ dupNzbnRows rows := by
      refine List.mem_filter.mpr ⟨hr, ?_⟩
      exact decide_eq_true hdup
    have : mkError dupNzbnReason r
        ∈ (dupNzbnRows rows).map (mkError dupNzbnReason) :=
      List.mem_map_of_mem _ hd
    simp only [violationList, List.mem_append]
    exact Or.inl (Or.inl (Or.inr this))

theorem c5_nzbn_format_independent_witness :
    (⟨2, "fourthParty", "fourthParty", "12AB", "1", ""⟩ : NRow)
        ∈ fourthRows [⟨"fourthParty", "12AB", "1", ""⟩, ⟨"fourthParty", "12 AB", "2", ""⟩] ∧
    mkError invalidNzbnReason ⟨2, "fourthParty", "fourthParty", "12AB", "1", ""⟩
      ∈ violationList ⟨false, false, false, false, false, none, none⟩
        [⟨"fourthParty", "12AB", "1", ""⟩, ⟨"fourthParty", "12 AB", "2", ""⟩] ∧
    mkError dupNzbnReason ⟨2, "fourthParty", "fourthParty", "12AB", "1", ""⟩
      ∈ violationList ⟨false, false, false, false, false, none, none⟩
        [⟨"fourthParty", "12AB", "1", ""⟩, ⟨"fourthParty", "12 AB", "2", ""⟩] := by
  refine ⟨by decide, ?_⟩
  have h := (c5_nzbn_format_independent ⟨false, false, false, false, false, none, none⟩
    [⟨"fourthParty", "12AB", "1", ""⟩, ⟨"fourthParty", "12 AB", "2", ""⟩]
    ⟨2, "fourthParty", "fourthParty", "12AB", "1", ""⟩ (by decide)).2
    (by decide) (by decide)
  exact h

/-- C4: for each kind with a configured ceiling, only rows whose limit
parses are considered; a violation is produced exactly when the parsed
value strictly exceeds the ceiling (a value equal to the ceiling is
accepted), and the violation's reason text embeds the ceiling value. -/
theorem c4_ceiling_strict_inclusive (cfg : Config) (rows : List RawRow) (c : ℚ)
    (r : NRow) :
    (cfg.max_fourth = some c →
      (r ∈ overRows c (fourthRows rows) ↔
        r ∈ fourthRows rows ∧
          ∃ v, to_number_or_none r.paymentLimit = some v ∧ c < v) ∧
      (r ∈ overRows c (fourthRows rows) →
        mkError (ceilingReason c) r ∈ violationList cfg rows) ∧
      (to_number_or_none r.paymentLimit = some c →
        r ∉ overRows c (fourthRows rows))) ∧
    (cfg.max_creditor = some c →
      (r ∈ overRows c (credRows rows) ↔
        r ∈ credRows rows ∧
          ∃ v, to_number_or_none r.paymentLimit = some v ∧ c < v) ∧
      (r ∈ overRows c (credRows rows) →
        mkError (ceilingReason c) r ∈ violationList cfg rows) ∧
      (to_number_or_none r.paymentLimit = some c →
        r ∉ overRows c (credRows rows))) ∧
    ceilingReason c = "paymentLimit > " ++ ratText c := by
  have hEq : ∀ l : List NRow, to_number_or_none r.paymentLimit = some c →
      r ∉ overRows c l := by
    intro l hp hmem
    obtain ⟨-, v, hv, hlt⟩ := (mem_overRows_iff c l r).mp hmem
    rw [hp] at hv
    cases Option.some.inj hv
    exact lt_irrefl c hlt
  refine ⟨fun hmf => ⟨mem_overRows_iff c _ r, ?_, hEq _⟩,
          fun hmc => ⟨mem_overRows_iff c _ r, ?_, hEq _⟩, rfl⟩
  · intro hmem
    have hgate : numGate cfg = true := by
      simp [numGate, hmf]
    have hseg : mkError (ceilingReason c) r
        ∈ (overRows c (fourthRows rows)).map (mkError (ceilingReason c)) :=
      List.mem_map_of_mem _ hmem
    simp only [violationList, List.mem_append, numericErrs, hgate, if_true, hmf]
    tauto
  · intro hmem
    have hgate : numGate cfg = true := by
      simp [numGate, hmc]
    have hseg : mkError (ceilingReason c) r
        ∈ (overRows c (credRows rows)).map (mkError (ceilingReason c)) :=
      List.mem_map_of_mem _ hmem
    simp only [violationList, List.mem_append, numericErrs, hgate, if_true, hmc]
    tauto

theorem c4_ceiling_strict_inclusive_witness :
    ((⟨false, false, false, false, false, some 100, some 100⟩ : Config).max_fourth
        = some 100) ∧
    mkError (ceilingReason 100) ⟨2, "fourthParty", "fourthParty", "1234567890123", "150", ""⟩
      ∈ violationList ⟨false, false, false, false, false, some 100, some 100⟩
        [⟨"fourthParty", "1234567890123", "150", ""⟩,
         ⟨"creditorAccount", "7", "150", ""⟩] ∧
    mkError (ceilingReason 100) ⟨3, "creditorAccount", "creditorAccount", "7", "150", ""⟩
      ∈ violationList ⟨false, false, false, false, false, some 100, some 100⟩
        [⟨"fourthParty", "1234567890123", "150", ""⟩,
         ⟨"creditorAccount", "7", "150", ""⟩] ∧
    to_number_or_none "100" = some 100 ∧
    (⟨2, "fourthParty", "fourthParty", "1234567890123", "100", ""⟩ : NRow)
      ∉ overRows 100 (fourthRows [⟨"fourthParty", "1234567890123", "100", ""⟩]) := by
  refine ⟨rfl, ?_, ?_, by decide, ?_⟩
  · exact ((c4_ceiling_strict_inclusive ⟨false, false, false, false, false, some 100, some 100⟩
      [⟨"fourthParty", "1234567890123", "150", ""⟩, ⟨"creditorAccount", "7", "150", ""⟩]
      100 ⟨2, "fourthParty", "fourthParty", "1234567890123", "150", ""⟩).1 rfl).2.1
      (by decide)
  · exact ((c4_ceiling_strict_inclusive ⟨false, false, false, false, false, some 100, some 100⟩
      [⟨"fourthParty", "1234567890123", "150", ""⟩, ⟨"creditorAccount", "7", "150", ""⟩]
      100 ⟨3, "creditorAccount", "creditorAccount", "7", "150", ""⟩).2.1 rfl).2.1
      (by decide)
  · exact ((c4_ceiling_strict_inclusive ⟨false, false, false, false, false, some 100, some 100⟩
      [⟨"fourthParty", "1234567890123", "100", ""⟩]
      100 ⟨2, "fourthParty", "fourthParty", "1234567890123", "100", ""⟩).1 rfl).2.2
      (by decide)

/-- C3: within each kind's key space, a key occurring `N ≥ 2` times among
rows of that kind produces exactly `N` duplicate-identifier violations —
one per occurrence, the first included. -/
theorem c3_duplicates_flag_all_occurrences (cfg : Config) (rows : List RawRow)
    (k : String) :
    (2 ≤ (fourthRows rows).countP (fun x => nzbnOf x == k) →
      (violationList cfg rows).countP
          (fun e => e.reason == dupNzbnReason && stripWs e.id == k)
        = (fourthRows rows).countP (fun x => nzbnOf x == k)) ∧
    (2 ≤ (credRows rows).countP (fun x => x.id == k) →
      (violationList cfg rows).countP
          (fun e => e.reason == dupAcctReason && e.id == k)
        = (credRows rows).countP (fun x => x.id == k)) := by
  constructor
  · intro h
    simp only [violationList, List.countP_append]
    rw [countP_map_mkError_zero invalidTypeReason _ _
          (by intro r _; simp [mkError, show (invalidTypeReason == dupNzbnReason) = false from by decide]),
        countP_map_mkError_zero invalidNzbnReason _ _
          (by intro r _; simp [mkError, show (invalidNzbnReason == dupNzbnReason) = false from by decide]),
        countP_map_mkError_zero dupAcctReason _ _
          (by intro r _; simp [mkError, show (dupAcctReason == dupNzbnReason) = false from by decide]),
        countP_numericErrs_zero cfg rows _ ?_]
    · rw [List.countP_map]
      have hc : (dupNzbnRows rows).countP
            ((fun e => e.reason == dupNzbnReason && stripWs e.id == k) ∘ mkError dupNzbnReason)
          = (dupNzbnRows rows).countP (fun r => nzbnOf r == k) := by
        apply List.countP_congr
        intro r _
        simp [mkError, nzbnOf]
      rw [hc, List.countP_eq_length_filter]
      have := dup_filter_key_length (fourthRows rows) nzbnOf k h
      rw [show (dupNzbnRows rows).filter (fun r => nzbnOf r == k)
            = ((fourthRows rows).filter
                (fun r => decide (2 ≤ (fourthRows rows).countP
                  (fun x => nzbnOf x == nzbnOf r)))).filter (fun r => nzbnOf r == k)
          from rfl, this]
      omega
    · intro e he
      rcases reason_of_mem_numericErrs he with h' | ⟨c, h'⟩
      · simp [h', show (nonNumericReason == dupNzbnReason) = false from by decide]
      · simp [h', beq_eq_false_iff_ne.mpr (ceilingReason_ne_dupNzbn c)]
  · intro h
    simp only [violationList, List.countP_append]
    rw [countP_map_mkError_zero invalidTypeReason _ _
          (by intro r _; simp [mkError, show (invalidTypeReason == dupAcctReason) = false from by decide]),
        countP_map_mkError_zero invalidNzbnReason _ _
          (by intro r _; simp [mkError, show (invalidNzbnReason == dupAcctReason) = false from by decide]),
        countP_map_mkError_zero dupNzbnReason _ _
          (by intro r _; simp [mkError, show (dupNzbnReason == dupAcctReason) = false from by decide]),
        countP_numericErrs_zero cfg rows _ ?_]
    · rw [List.countP_map]
      have hc : (dupAcctRows rows).countP
            ((fun e => e.reason == dupAcctReason && e.id == k) ∘ mkError dupAcctReason)
          = (dupAcctRows rows).countP (fun r => r.id == k) := by
        apply List.countP_congr
        intro r _
        simp [mkError]
      rw [hc, List.countP_eq_length_filter]
      have := dup_filter_key_length (credRows rows) (fun r => r.id) k h
      rw [show (dupAcctRows rows).filter (fun r => r.id == k)
            = ((credRows rows).filter
                (fun r => decide (2 ≤ (credRows rows).countP
                  (fun x => x.id == r.id)))).filter (fun r => r.id == k)
          from rfl, this]
      have hbeta : (credRows rows).countP (fun x => (fun r : NRow => r.id) x == k)
          = (credRows rows).countP (fun x => x.id == k) := rfl
      omega
    · intro e he
      rcases reason_of_mem_numericErrs he with h' | ⟨c, h'⟩
      · simp [h', show (nonNumericReason == dupAcctReason) = false from by decide]
      · simp [h', beq_eq_false_iff_ne.mpr (ceilingReason_ne_dupAcct c)]

theorem c3_duplicates_flag_all_occurrences_witness :
    2 ≤ (fourthRows [⟨"fourthParty", "9999999999999", "1", ""⟩,
          ⟨"fourthParty", "9999999999999", "2", ""⟩,
          ⟨"creditorAccount", "A", "3", ""⟩,
          ⟨"creditorAccount", "A", "4", ""⟩]).countP
        (fun x => nzbnOf x == "9999999999999") ∧
    (violationList ⟨false, false, false, false, false, none, none⟩
        [⟨"fourthParty", "9999999999999", "1", ""⟩,
         ⟨"fourthParty", "9999999999999", "2", ""⟩,
         ⟨"creditorAccount", "A", "3", ""⟩,
         ⟨"creditorAccount", "A", "4", ""⟩]).countP
        (fun e => e.reason == dupNzbnReason && stripWs e.id == "9999999999999")
      = (fourthRows [⟨"fourthParty", "9999999999999", "1", ""⟩,
          ⟨"fourthParty", "9999999999999", "2", ""⟩,
          ⟨"creditorAccount", "A", "3", ""⟩,
          ⟨"creditorAccount", "A", "4", ""⟩]).countP
        (fun x => nzbnOf x == "9999999999999") ∧
    (violationList ⟨false, false, false, false, false, none, none⟩
        [⟨"fourthParty", "9999999999999", "1", ""⟩,
         ⟨"fourthParty", "9999999999999", "2", ""⟩,
         ⟨"creditorAccount", "A", "3", ""⟩,
         ⟨"creditorAccount", "A", "4", ""⟩]).countP
        (fun e => e.reason == dupAcctReason && e.id == "A")
      = (credRows [⟨"fourthParty", "9999999999999", "1", ""⟩,
          ⟨"fourthParty", "9999999999999", "2", ""⟩,
          ⟨"creditorAccount", "A", "3", ""⟩,
          ⟨"creditorAccount", "A", "4", ""⟩]).countP (fun x => x.id == "A") :=
  ⟨by decide,
   (c3_duplicates_flag_all_occurrences ⟨false, false, false, false, false, none, none⟩
      _ "9999999999999").1 (by decide),
   (c3_duplicates_flag_all_occurrences ⟨false, false, false, false, false, none, none⟩
      _ "A").2 (by decide)⟩

/-- The comparison used by the report sort, as a proposition. -/
theorem errLe_iff (a b : ErrorRow) :
    errLe a b = true ↔
      a.excel_row < b.excel_row ∨
        (a.excel_row = b.excel_row ∧ a.reason ≤ b.reason) := by
  simp [errLe]

/-- The report comparison is total. -/
theorem errLe_total (a b : ErrorRow) : errLe a b || errLe b a := by
  by_cases h1 : a.excel_row < b.excel_row
  · simp [errLe, h1]
  · by_cases h2 : b.excel_row < a.excel_row
    · simp [errLe, h2]
    · have he : a.excel_row = b.excel_row :=
        Nat.le_antisymm (Nat.not_lt.mp h2) (Nat.not_lt.mp h1)
      rcases le_total a.reason b.reason with h3 | h3
      · simp [errLe, he, h3]
      · simp [errLe, he, h3]

/-- The report comparison is transitive. -/
theorem errLe_trans (a b c : ErrorRow) (hab : errLe a b) (hbc : errLe b c) :
    errLe a c := by
  rw [errLe_iff] at *
  rcases hab with h1 | ⟨h1, h1'⟩ <;> rcases hbc with h2 | ⟨h2, h2'⟩
  · exact Or.inl (Nat.lt_trans h1 h2)
  · exact Or.inl (h2 ▸ h1)
  · exact Or.inl (h1 ▸ h2)
  · exact Or.inr ⟨h1.trans h2, le_trans h1' h2'⟩

/-- C6: on a failing run the reported detailed list is the violation set
sorted by source position ascending with ties broken by reason text, and
it is a permutation of the accumulated violation list (so nothing is
dropped or invented by the sort). -/
theorem c6_detailed_report_sorted (cfg : Config) (rows : List RawRow)
    (h : violationList cfg rows ≠ []) :
    runPipeline cfg rows
      = .validationFailure (summaryLines cfg rows) (sortedViolations cfg rows) ∧
    (sortedViolations cfg rows).Perm (violationList cfg rows) ∧
    (sortedViolations cfg rows).Pairwise
      (fun a b => a.excel_row < b.excel_row ∨
        (a.excel_row = b.excel_row ∧ a.reason ≤ b.reason)) := by
  refine ⟨by unfold runPipeline; exact if_pos h, List.mergeSort_perm _ _, ?_⟩
  have hp := List.sorted_mergeSort
    (fun a b c => errLe_trans a b c) (fun a b => errLe_total a b)
    (violationList cfg rows)
  exact hp.imp (fun hab => (errLe_iff _ _).mp hab)

theorem c6_detailed_report_sorted_witness :
    violationList ⟨false, false, false, false, false, none, none⟩
        [⟨"fourthParty", "12AB", "1", ""⟩, ⟨"fourthParty", "12 AB", "2", ""⟩] ≠ [] ∧
    (sortedViolations ⟨false, false, false, false, false, none, none⟩
        [⟨"fourthParty", "12AB", "1", ""⟩, ⟨"fourthParty", "12 AB", "2", ""⟩]).Pairwise
      (fun a b => a.excel_row < b.excel_row ∨
        (a.excel_row = b.excel_row ∧ a.reason ≤ b.reason)) :=
  ⟨by decide,
   (c6_detailed_report_sorted ⟨false, false, false, false, false, none, none⟩
      [⟨"fourthParty", "12AB", "1", ""⟩, ⟨"fourthParty", "12 AB", "2", ""⟩]
      (by decide)).2.2⟩

/-- C10: for every violation category, the count stated in its summary
line (recomputed in the summary block) equals the number of records of
that category in the sorted detailed list; the corresponding summary line
is present whenever the count is positive.  Categories sharing a reason
string across kinds (non-numeric limit, ceilings) are told apart by the
record's kind field. -/
theorem c10_summary_counts_match_detail (cfg : Config) (rows : List RawRow) :
    ((sortedViolations cfg rows).countP (fun e => e.reason == invalidTypeReason)
        = (badTypeRows rows).length ∧
     (0 < (badTypeRows rows).length →
       (toString (badTypeRows rows).length ++ " rows have invalid \x27type\x27.")
         ∈ summaryLines cfg rows)) ∧
    ((sortedViolations cfg rows).countP (fun e => e.reason == invalidNzbnReason)
        = (badNzbnRows rows).length ∧
     (0 < (badNzbnRows rows).length →
       (toString (badNzbnRows rows).length
           ++ " fourthParty rows have invalid NZBN (must be 13 digits).")
         ∈ summaryLines cfg rows)) ∧
    ((sortedViolations cfg rows).countP (fun e => e.reason == dupNzbnReason)
        = (dupNzbnRows rows).length ∧
     (0 < (dupNzbnRows rows).length →
       (toString (dupNzbnRows rows).length ++ " fourthParty rows have duplicate NZBNs.")
         ∈ summaryLines cfg rows)) ∧
    ((sortedViolations cfg rows).countP (fun e => e.reason == dupAcctReason)
        = (dupAcctRows rows).length ∧
     (0 < (dupAcctRows rows).length →
       (toString (dupAcctRows rows).length
           ++ " creditorAccount rows have duplicate accountNumbers.")
         ∈ summaryLines cfg rows)) ∧
    (cfg.require_numeric_paymentlimit = true →
      ((sortedViolations cfg rows).countP
          (fun e => e.reason == nonNumericReason && e.typ == "fourthParty")
        = (badNumRows (fourthRows rows)).length ∧
       (0 < (badNumRows (fourthRows rows)).length →
         (toString (badNumRows (fourthRows rows)).length
             ++ " fourthParty rows have non-numeric paymentLimit.")
           ∈ summaryLines cfg rows) ∧
       (sortedViolations cfg rows).countP
          (fun e => e.reason == nonNumericReason && e.typ == "creditorAccount")
        = (badNumRows (credRows rows)).length ∧
       (0 < (badNumRows (credRows rows)).length →
         (toString (badNumRows (credRows rows)).length
             ++ " creditorAccount rows have non-numeric paymentLimit.")
           ∈ summaryLines cfg rows))) ∧
    (∀ c, cfg.max_fourth = some c →
      (sortedViolations cfg rows).countP
          (fun e => e.reason == ceilingReason c && e.typ == "fourthParty")
        = (overRows c (fourthRows rows)).length ∧
      (0 < (overRows c (fourthRows rows)).length →
        (toString (overRows c (fourthRows rows)).length
            ++ " fourthParty rows have paymentLimit > " ++ ratText c ++ ".")
          ∈ summaryLines cfg rows)) ∧
    (∀ c, cfg.max_creditor = some c →
      (sortedViolations cfg rows).countP
          (fun e => e.reason == ceilingReason c && e.typ == "creditorAccount")
        = (overRows c (credRows rows)).length ∧
      (0 < (overRows c (credRows rows)).length →
        (toString (overRows c (credRows rows)).length
            ++ " creditorAccount rows have paymentLimit > " ++ ratText c ++ ".")
          ∈ summaryLines cfg rows)) := by
  have hperm : ∀ p : ErrorRow → Bool,
      (sortedViolations cfg rows).countP p = (violationList cfg rows).countP p :=
    fun p => List.Perm.countP_eq p (List.mergeSort_perm _ _)
  have hnzero : ∀ (R' : String) (q : ErrorRow → Bool),
      nonNumericReason ≠ R' → (∀ c, ceilingReason c ≠ R') →
      (numericErrs cfg rows).countP (fun e => e.reason == R' && q e) = 0 := by
    intro R' q hn hc
    apply countP_numericErrs_zero
    intro e he
    rcases reason_of_mem_numericErrs he with h' | ⟨c, h'⟩
    · simp [h', beq_eq_false_iff_ne.mpr hn]
    · simp [h', beq_eq_false_iff_ne.mpr (hc c)]
  have hnzeroR : ∀ R' : String,
      nonNumericReason ≠ R' → (∀ c, ceilingReason c ≠ R') →
      (numericErrs cfg rows).countP (fun e => e.reason == R') = 0 := by
    intro R' hn hc
    apply countP_numericErrs_zero
    intro e he
    rcases reason_of_mem_numericErrs he with h' | ⟨c, h'⟩
    · simp [h', beq_eq_false_iff_ne.mpr hn]
    · simp [h', beq_eq_false_iff_ne.mpr (hc c)]
  refine ⟨⟨?_, ?_⟩, ⟨?_, ?_⟩, ⟨?_, ?_⟩, ⟨?_, ?_⟩, ?_, ?_, ?_⟩
  · rw [hperm]
    simp only [violationList, List.countP_append]
    rw [countP_map_mkError_full invalidTypeReason _ _ (by intro r _; simp [mkError]),
        countP_map_mkError_zero invalidNzbnReason _ _
          (by intro r _; simp [mkError, show (invalidNzbnReason == invalidTypeReason) = false from by decide]),
        countP_map_mkError_zero dupNzbnReason _ _
          (by intro r _; simp [mkError, show (dupNzbnReason == invalidTypeReason) = false from by decide]),
        countP_map_mkError_zero dupAcctReason _ _
          (by intro r _; simp [mkError, show (dupAcctReason == invalidTypeReason) = false from by decide]),
        hnzeroR invalidTypeReason (by decide) ceilingReason_ne_invalidType]
    omega
  · intro hpos
    exact List.mem_append_left _ (List.mem_append_left _ (List.mem_append_left _
      (List.mem_append_left _ (by rw [if_pos hpos]; exact List.mem_singleton.mpr rfl))))
  · rw [hperm]
    simp only [violationList, List.countP_append]
    rw [countP_map_mkError_zero invalidTypeReason _ _
          (by intro r _; simp [mkError, show (invalidTypeReason == invalidNzbnReason) = false from by decide]),
        countP_map_mkError_full invalidNzbnReason _ _ (by intro r _; simp [mkError]),
        countP_map_mkError_zero dupNzbnReason _ _
          (by intro r _; simp [mkError, show (dupNzbnReason == invalidNzbnReason) = false from by decide]),
        countP_map_mkError_zero dupAcctReason _ _
          (by intro r _; simp [mkError, show (dupAcctReason == invalidNzbnReason) = false from by decide]),
        hnzeroR invalidNzbnReason (by decide) ceilingReason_ne_invalidNzbn]
    omega
  · intro hpos
    exact List.mem_append_left _ (List.mem_append_left _ (List.mem_append_left _
      (List.mem_append_right _ (by rw [if_pos hpos]; exact List.mem_singleton.mpr rfl))))
  · rw [hperm]
    simp only [violationList, List.countP_append]
    rw [countP_map_mkError_zero invalidTypeReason _ _
          (by intro r _; simp [mkError, show (invalidTypeReason == dupNzbnReason) = false from by decide]),
        countP_map_mkError_zero invalidNzbnReason _ _
          (by intro r _; simp [mkError, show (invalidNzbnReason == dupNzbnReason) = false from by decide]),
        countP_map_mkError_full dupNzbnReason _ _ (by intro r _; simp [mkError]),
        countP_map_mkError_zero dupAcctReason _ _
          (by intro r _; simp [mkError, show (dupAcctReason == dupNzbnReason) = false from by decide]),
        hnzeroR dupNzbnReason (by decide) ceilingReason_ne_dupNzbn]
    omega
  · intro hpos
    exact List.mem_append_left _ (List.mem_append_left _ (List.mem_append_right _
      (by rw [if_pos hpos]; exact List.mem_singleton.mpr rfl)))
  · rw [hperm]
    simp only [violationList, List.countP_append]
    rw [countP_map_mkError_zero invalidTypeReason _ _
          (by intro r _; simp [mkError, show (invalidTypeReason == dupAcctReason) = false from by decide]),
        countP_map_mkError_zero invalidNzbnReason _ _
          (by intro r _; simp [mkError, show (invalidNzbnReason == dupAcctReason) = false from by decide]),
        countP_map_mkError_zero dupNzbnReason _ _
          (by intro r _; simp [mkError, show (dupNzbnReason == dupAcctReason) = false from by decide]),
        countP_map_mkError_full dupAcctReason _ _ (by intro r _; simp [mkError]),
        hnzeroR dupAcctReason (by decide) ceilingReason_ne_dupAcct]
    omega
  · intro hpos
    exact List.mem_append_left _ (List.mem_append_right _
      (by rw [if_pos hpos]; exact List.mem_singleton.mpr rfl))
  · intro hrn
    have hgate : numGate cfg = true := by simp [numGate, hrn]
    refine ⟨?_, ?_, ?_, ?_⟩
    · rw [hperm]
      simp only [violationList, List.countP_append]
      rw [countP_map_mkError_zero invalidTypeReason _ _
            (by intro r _; simp [mkError, show (invalidTypeReason == nonNumericReason) = false from by decide]),
          countP_map_mkError_zero invalidNzbnReason _ _
            (by intro r _; simp [mkError, show (invalidNzbnReason == nonNumericReason) = false from by decide]),
          countP_map_mkError_zero dupNzbnReason _ _
            (by intro r _; simp [mkError, show (dupNzbnReason == nonNumericReason) = false from by decide]),
          countP_map_mkError_zero dupAcctReason _ _
            (by intro r _; simp [mkError, show (dupAcctReason == nonNumericReason) = false from by decide])]
      simp only [numericErrs, hgate, if_true, hrn, List.countP_append]
      rw [countP_map_mkError_full nonNumericReason _ _ (by
            intro r hr
            have hf : r ∈ fourthRows rows := List.mem_of_mem_filter hr
            simp [mkError, type_norm_of_mem_fourthRows hf]),
          countP_map_mkError_zero nonNumericReason _ _ (by
            intro r hr
            have hc : r ∈ credRows rows := List.mem_of_mem_filter hr
            simp [mkError, type_norm_of_mem_credRows hc])]
      rcases hmf : cfg.max_fourth with _ | cf <;>
        rcases hmc : cfg.max_creditor with _ | cc
      all_goals simp only [List.countP_nil]
      all_goals try rw [countP_map_mkError_zero (ceilingReason cf) _ _
        (by intro r _; simp [mkError, beq_eq_false_iff_ne.mpr
          (ceilingReason_ne_nonNumeric cf)])]
      all_goals try rw [countP_map_mkError_zero (ceilingReason cc) _ _
        (by intro r _; simp [mkError, beq_eq_false_iff_ne.mpr
          (ceilingReason_ne_nonNumeric cc)])]
      all_goals omega
    · intro hpos
      refine List.mem_append_right _ ?_
      rw [if_pos hgate]
      exact List.mem_append_left _ (List.mem_append_left _ (List.mem_append_left _
        (by rw [if_pos ⟨hrn, hpos⟩]; exact List.mem_singleton.mpr rfl)))
    · rw [hperm]
      simp only [violationList, List.countP_append]
      rw [countP_map_mkError_zero invalidTypeReason _ _
            (by intro r _; simp [mkError, show (invalidTypeReason == nonNumericReason) = false from by decide]),
          countP_map_mkError_zero invalidNzbnReason _ _
            (by intro r _; simp [mkError, show (invalidNzbnReason == nonNumericReason) = false from by decide]),
          countP_map_mkError_zero dupNzbnReason _ _
            (by intro r _; simp [mkError, show (dupNzbnReason == nonNumericReason) = false from by decide]),
          countP_map_mkError_zero dupAcctReason _ _
            (by intro r _; simp [mkError, show (dupAcctReason == nonNumericReason) = false from by decide])]
      simp only [numericErrs, hgate, if_true, hrn, List.countP_append]
      rw [countP_map_mkError_zero nonNumericReason _ _ (by
            intro r hr
            have hf : r ∈ fourthRows rows := List.mem_of_mem_filter hr
            simp [mkError, type_norm_of_mem_fourthRows hf]),
          countP_map_mkError_full nonNumericReason _ _ (by
            intro r hr
            have hc : r ∈ credRows rows := List.mem_of_mem_filter hr
            simp [mkError, type_norm_of_mem_credRows hc])]
      rcases hmf : cfg.max_fourth with _ | cf <;>
        rcases hmc : cfg.max_creditor with _ | cc
      all_goals simp only [List.countP_nil]
      all_goals try rw [countP_map_mkError_zero (ceilingReason cf) _ _
        (by intro r _; simp [mkError, beq_eq_false_iff_ne.mpr
          (ceilingReason_ne_nonNumeric cf)])]
      all_goals try rw [countP_map_mkError_zero (ceilingReason cc) _ _
        (by intro r _; simp [mkError, beq_eq_false_iff_ne.mpr
          (ceilingReason_ne_nonNumeric cc)])]
      all_goals omega
    · intro hpos
      refine List.mem_append_right _ ?_
      rw [if_pos hgate]
      exact List.mem_append_left _ (List.mem_append_left _ (List.mem_append_right _
        (by rw [if_pos ⟨hrn, hpos⟩]; exact List.mem_singleton.mpr rfl)))
  · intro c hmf
    have hgate : numGate cfg = true := by simp [numGate, hmf]
    constructor
    · rw [hperm]
      simp only [violationList, List.countP_append]
      rw [countP_map_mkError_zero invalidTypeReason _ _
            (by intro r _; simp [mkError, beq_eq_false_iff_ne.mpr
              (Ne.symm (ceilingReason_ne_invalidType c))]),
          countP_map_mkError_zero invalidNzbnReason _ _
            (by intro r _; simp [mkError, beq_eq_false_iff_ne.mpr
              (Ne.symm (ceilingReason_ne_invalidNzbn c))]),
          countP_map_mkError_zero dupNzbnReason _ _
            (by intro r _; simp [mkError, beq_eq_false_iff_ne.mpr
              (Ne.symm (ceilingReason_ne_dupNzbn c))]),
          countP_map_mkError_zero dupAcctReason _ _
            (by intro r _; simp [mkError, beq_eq_false_iff_ne.mpr
              (Ne.symm (ceilingReason_ne_dupAcct c))])]
      simp only [numericErrs, hgate, if_true, hmf, List.countP_append]
      rw [countP_map_mkError_full (ceilingReason c) _ _ (by
            intro r hr
            have hf : r ∈ fourthRows rows := List.mem_of_mem_filter hr
            simp [mkError, type_norm_of_mem_fourthRows hf])]
      have hb1 : (if cfg.require_numeric_paymentlimit = true then
            (badNumRows (fourthRows rows)).map (mkError nonNumericReason) else
            []).countP (fun e => e.reason == ceilingReason c && e.typ == "fourthParty") = 0 := by
        split
        · exact countP_map_mkError_zero nonNumericReason _ _
            (by intro r _; simp [mkError, beq_eq_false_iff_ne.mpr
              (ceilingReason_ne_nonNumeric c).symm])
        · simp
      have hb2 : (if cfg.require_numeric_paymentlimit = true then
            (badNumRows (credRows rows)).map (mkError nonNumericReason) else
            []).countP (fun e => e.reason == ceilingReason c && e.typ == "fourthParty") = 0 := by
        split
        · exact countP_map_mkError_zero nonNumericReason _ _
            (by intro r _; simp [mkError, beq_eq_false_iff_ne.mpr
              (ceilingReason_ne_nonNumeric c).symm])
        · simp
      rw [hb1, hb2]
      rcases hmc : cfg.max_creditor with _ | cc <;> simp only [List.countP_nil]
      · omega
      · rw [countP_map_mkError_zero (ceilingReason cc) _ _ (by
            intro r hr
            have hc' : r ∈ credRows rows := List.mem_of_mem_filter hr
            simp [mkError, type_norm_of_mem_credRows hc'])]
        omega
    · intro hpos
      refine List.mem_append_right _ ?_
      rw [if_pos hgate]
      refine List.mem_append_left _ (List.mem_append_right _ ?_)
      simp only [hmf]
      rw [if_pos hpos]
      exact List.mem_singleton.mpr rfl
  · intro c hmc
    have hgate : numGate cfg = true := by simp [numGate, hmc]
    constructor
    · rw [hperm]
      simp only [violationList, List.countP_append]
      rw [countP_map_mkError_zero invalidTypeReason _ _
            (by intro r _; simp [mkError, beq_eq_false_iff_ne.mpr
              (Ne.symm (ceilingReason_ne_invalidType c))]),
          countP_map_mkError_zero invalidNzbnReason _ _
            (by intro r _; simp [mkError, beq_eq_false_iff_ne.mpr
              (Ne.symm (ceilingReason_ne_invalidNzbn c))]),
          countP_map_mkError_zero dupNzbnReason _ _
            (by intro r _; simp [mkError, beq_eq_false_iff_ne.mpr
              (Ne.symm (ceilingReason_ne_dupNzbn c))]),
          countP_map_mkError_zero dupAcctReason _ _
            (by intro r _; simp [mkError, beq_eq_false_iff_ne.mpr
              (Ne.symm (ceilingReason_ne_dupAcct c))])]
      simp only [numericErrs, hgate, if_true, hmc, List.countP_append]
      rw [countP_map_mkError_full (ceilingReason c) _ _ (by
            intro r hr
            have hc' : r ∈ credRows rows := List.mem_of_mem_filter hr
            simp [mkError, type_norm_of_mem_credRows hc'])]
      have hb1 : (if cfg.require_numeric_paymentlimit = true then
            (badNumRows (fourthRows rows)).map (mkError nonNumericReason) else
            []).countP (fun e => e.reason == ceilingReason c && e.typ == "creditorAccount") = 0 := by
        split
        · exact countP_map_mkError_zero nonNumericReason _ _
            (by intro r _; simp [mkError, beq_eq_false_iff_ne.mpr
              (ceilingReason_ne_nonNumeric c).symm])
        · simp
      have hb2 : (if cfg.require_numeric_paymentlimit = true then
            (badNumRows (credRows rows)).map (mkError nonNumericReason) else
            []).countP (fun e => e.reason == ceilingReason c && e.typ == "creditorAccount") = 0 := by
        split
        · exact countP_map_mkError_zero nonNumericReason _ _
            (by intro r _; simp [mkError, beq_eq_false_iff_ne.mpr
              (ceilingReason_ne_nonNumeric c).symm])
        · simp
      rw [hb1, hb2]
      rcases hmf : cfg.max_fourth with _ | cf <;> simp only [List.countP_nil]
      · omega
      · rw [countP_map_mkError_zero (ceilingReason cf) _ _ (by
            intro r hr
            have hf : r ∈ fourthRows rows := List.mem_of_mem_filter hr
            simp [mkError, type_norm_of_mem_fourthRows hf])]
        omega
    · intro hpos
      refine List.mem_append_right _ ?_
      rw [if_pos hgate]
      refine List.mem_append_right _ ?_
      simp only [hmc]
      rw [if_pos hpos]
      exact List.mem_singleton.mpr rfl

theorem c10_summary_counts_match_detail_witness :
    ((⟨false, false, false, false, true, none, none⟩ : Config).require_numeric_paymentlimit
        = true) ∧
    (sortedViolations ⟨false, false, false, false, true, none, none⟩
        [⟨"fourthParty", "1234567890123", "abc", ""⟩,
         ⟨"creditorAccount", "7", "xyz", ""⟩]).countP
        (fun e => e.reason == nonNumericReason && e.typ == "fourthParty")
      = (badNumRows (fourthRows
          [⟨"fourthParty", "1234567890123", "abc", ""⟩,
           ⟨"creditorAccount", "7", "xyz", ""⟩])).length ∧
    0 < (badNumRows (fourthRows
          [⟨"fourthParty", "1234567890123", "abc", ""⟩,
           ⟨"creditorAccount", "7", "xyz", ""⟩])).length ∧
    (toString (badNumRows (fourthRows
          [⟨"fourthParty", "1234567890123", "abc", ""⟩,
           ⟨"creditorAccount", "7", "xyz", ""⟩])).length
        ++ " fourthParty rows have non-numeric paymentLimit.")
      ∈ summaryLines ⟨false, false, false, false, true, none, none⟩
          [⟨"fourthParty", "1234567890123", "abc", ""⟩,
           ⟨"creditorAccount", "7", "xyz", ""⟩] := by
  have h := (c10_summary_counts_match_detail
    ⟨false, false, false, false, true, none, none⟩
    [⟨"fourthParty", "1234567890123", "abc", ""⟩,
     ⟨"creditorAccount", "7", "xyz", ""⟩]).2.2.2.2.1 rfl
  exact ⟨rfl, h.1, by decide, h.2.1 (by decide)⟩

/-- Each record whose key satisfies the predicate contributes a non-empty
block, so the flattened stream has at least that many characters. -/
theorem filter_length_le_flatten {α : Type} (l : List α) (f : α → List Char)
    (p : α → Bool) (h : ∀ r ∈ l, p r = true → f r ≠ []) :
    (l.filter p).length ≤ ((l.map f).flatten).length := by
  induction l with
  | nil => simp
  | cons r rs ih =>
    have ih' := ih (fun x hx hp => h x (List.mem_cons_of_mem _ hx) hp)
    simp only [List.map_cons, List.flatten_cons, List.length_append, List.filter_cons]
    by_cases hp : p r = true
    · have h1 : 1 ≤ (f r).length := by
        have hne := h r (List.mem_cons_self r rs) hp
        cases hfr : f r with
        | nil => exact absurd hfr hne
        | cons _ _ => simp
      simp only [hp, if_true, List.length_cons]
      omega
    · simp only [Bool.not_eq_true] at hp
      simp only [hp, Bool.false_eq_true, if_false]
      omega

/-- Reading a whole emitted section in which empty-key records emit
nothing: exactly the non-empty-key records are recovered, in order. -/
theorem parseEntries_join_skip (key : String) (kv : NRow → String)
    (entry : NRow → String) (l : List NRow) (tail : List Char) (fuel : Nat)
    (hfuel : (l.filter (fun r => kv r ≠ "")).length ≤ fuel)
    (hempty : ∀ r ∈ l, kv r = "" → (entry r).data = [])
    (hshape : ∀ r ∈ l, kv r ≠ "" → (entry r).data
      = ("  - " ++ key ++ ":\x27").data
        ++ (escChars (kv r).data ++ ('\x27' :: '\n' :: ("      paymentLimit:\x27".data
          ++ (escChars r.paymentLimit.data ++ ('\x27' ::
            ((if r.comment = "" then [] else ' ' :: '#' :: r.comment.data) ++ ['\n'])))))))
    (hcm : ∀ r ∈ l, kv r ≠ "" → '\n' ∉ r.comment.data)
    (htail : dropPre ("  - " ++ key ++ ":\x27").data tail = none) :
    parseEntries key fuel ((String.join (l.map entry)).data ++ tail)
      = ((l.filter (fun r => kv r ≠ "")).map (fun r => (kv r, r.paymentLimit)), tail) := by
  induction l generalizing fuel with
  | nil =>
    rw [show (String.join (([] : List NRow).map entry)).data ++ tail = tail from by
      simp [data_join]]
    rw [parseEntries_stop key fuel tail htail]
    simp
  | cons r rs ih =>
    by_cases hkv : kv r = ""
    · have hfil : (r :: rs).filter (fun r => kv r ≠ "")
          = rs.filter (fun r => kv r ≠ "") := by
        simp [List.filter_cons, hkv]
      rw [hfil] at hfuel
      have hd : (String.join ((r :: rs).map entry)).data ++ tail
          = (String.join (rs.map entry)).data ++ tail := by
        rw [show (String.join ((r :: rs).map entry)).data
              = (entry r).data ++ (String.join (rs.map entry)).data from by
          simp [data_join]]
        rw [hempty r (List.mem_cons_self r rs) hkv]
        simp
      rw [hd, hfil]
      exact ih fuel hfuel (fun x hx => hempty x (List.mem_cons_of_mem _ hx))
        (fun x hx => hshape x (List.mem_cons_of_mem _ hx))
        (fun x hx => hcm x (List.mem_cons_of_mem _ hx))
    · have hfil : (r :: rs).filter (fun r => kv r ≠ "")
          = r :: rs.filter (fun r => kv r ≠ "") := by
        simp [List.filter_cons, hkv]
      rw [hfil] at hfuel
      obtain ⟨f, rfl⟩ : ∃ f, fuel = f + 1 := by
        cases fuel with
        | zero => simp at hfuel
        | succ f => exact ⟨f, rfl⟩
      have hf : (rs.filter (fun r => kv r ≠ "")).length ≤ f := by
        simp only [List.length_cons] at hfuel
        omega
      have hd : (String.join ((r :: rs).map entry)).data ++ tail
          = ("  - " ++ key ++ ":\x27").data
            ++ (escChars (kv r).data ++ ('\x27' :: '\n' :: ("      paymentLimit:\x27".data
              ++ (escChars r.paymentLimit.data ++ ('\x27' ::
                ((if r.comment = "" then [] else ' ' :: '#' :: r.comment.data)
                  ++ '\n' :: ((String.join (rs.map entry)).data ++ tail))))))) := by
        rw [show (String.join ((r :: rs).map entry)).data
              = (entry r).data ++ (String.join (rs.map entry)).data from by
          simp [data_join]]
        rw [hshape r (List.mem_cons_self r rs) hkv]
        simp [List.append_assoc]
      rw [hd, parseEntries_step key f (kv r).data r.paymentLimit.data _ _
        (by split
            · simp
            · simp only [List.head?_cons]
              intro hcon
              exact absurd (Option.some.inj hcon) (by decide))
        (by split
            · simp
            · have := hcm r (List.mem_cons_self r rs) hkv
              simp [this])]
      rw [ih f hf (fun x hx => hempty x (List.mem_cons_of_mem _ hx))
        (fun x hx => hshape x (List.mem_cons_of_mem _ hx))
        (fun x hx => hcm x (List.mem_cons_of_mem _ hx))]
      rw [hfil]
      rfl

/-- Reading back a whole emitted document: exactly the records with a
non-empty primary key are recovered, in order, per section; empty-key
records are skipped in place.  Requires only that the emitted (non-empty
key) records carry newline-free comments. -/
theorem parse_emitDocument_skip (cred fourth : List NRow)
    (hc : ∀ r ∈ cred, r.id ≠ "" → '\n' ∉ r.comment.data)
    (hf : ∀ r ∈ fourth, nzbnOf r ≠ "" → '\n' ∉ r.comment.data) :
    parseDocument (emitDocument cred fourth)
      = some ((cred.filter (fun r => r.id ≠ "")).map (fun r => (r.id, r.paymentLimit)),
              (fourth.filter (fun r => nzbnOf r ≠ "")).map
                (fun r => (nzbnOf r, r.paymentLimit))) := by
  have hjc : ((cred.map (fun r => (credEntry r).data)).flatten)
      = (String.join (cred.map credEntry)).data := by
    rw [data_join, List.map_map]
    rfl
  have hjf : ((fourth.map (fun r => (fourthEntry r).data)).flatten)
      = (String.join (fourth.map fourthEntry)).data := by
    rw [data_join, List.map_map]
    rfl
  have hlen1 : (cred.filter (fun r => r.id ≠ "")).length
      ≤ ((String.join (cred.map credEntry)).data
        ++ ("fourthParties:\n".data
          ++ (String.join (fourth.map fourthEntry)).data)).length := by
    have h1 := filter_length_le_flatten cred (fun r => (credEntry r).data)
      (fun r => r.id ≠ "")
      (fun r hr hp => by
        show (credEntry r).data ≠ []
        rw [credEntry_data r (by simpa using hp)]
        simp)
    rw [hjc] at h1
    rw [List.length_append]
    omega
  have hlen2 : (fourth.filter (fun r => nzbnOf r ≠ "")).length
      ≤ (String.join (fourth.map fourthEntry)).data.length := by
    have h1 := filter_length_le_flatten fourth (fun r => (fourthEntry r).data)
      (fun r => nzbnOf r ≠ "")
      (fun r hr hp => by
        show (fourthEntry r).data ≠ []
        rw [fourthEntry_data r (by simpa using hp)]
        simp)
    rw [hjf] at h1
    omega
  have h1 := parseEntries_join_skip "accountNumber" (fun r => r.id) credEntry cred
    ("fourthParties:\n".data ++ (String.join (fourth.map fourthEntry)).data)
    ((String.join (cred.map credEntry)).data
      ++ ("fourthParties:\n".data ++ (String.join (fourth.map fourthEntry)).data)).length
    hlen1
    (fun r hr h => by simp [credEntry, h])
    (fun r hr h => credEntry_data r h)
    hc
    rfl
  have h3 := parseEntries_join_skip "nzbn" nzbnOf fourthEntry fourth []
    (String.join (fourth.map fourthEntry)).data.length
    hlen2
    (fun r hr h => by simp [fourthEntry, h])
    (fun r hr h => fourthEntry_data r h)
    hf
    rfl
  rw [List.append_nil] at h3
  have h2 := dropPre_append "fourthParties:\n".data
    (String.join (fourth.map fourthEntry)).data
  simp only [parseDocument, emitDocument_data, dropPre_append, h1, h2, h3]
  simp

/-- C7, counterexample to the claim as stated, at two concrete inputs.
First, a creditorAccount row with an empty identifier survives validation
(no creditor-side format check exists), becomes an AcceptedRecord, but the
emitter silently skips it, so the parsed-back document does not reproduce
its fields.  Second, an accepted record with a non-empty key whose comment
embeds a newline is emitted with the raw comment on the limit line, which
breaks the document line structure: parsing it back fails entirely, so
even that record is not reproduced. -/
theorem c7_roundtrip_counterexample :
    (violationList ⟨false, false, false, false, false, none, none⟩
        [⟨"creditorAccount", "", "5", ""⟩] = [] ∧
      runPipeline ⟨false, false, false, false, false, none, none⟩
        [⟨"creditorAccount", "", "5", ""⟩]
        = .success "creditorAccounts:\nfourthParties:\n" ∧
      (acceptedCred ⟨false, false, false, false, false, none, none⟩
          [⟨"creditorAccount", "", "5", ""⟩]).map (fun r => (r.id, r.paymentLimit))
        = [("", "5")] ∧
      parseDocument "creditorAccounts:\nfourthParties:\n" = some ([], []) ∧
      ¬ (([] : List (String × String)) = [("", "5")])) ∧
    (violationList ⟨false, false, false, false, false, none, none⟩
        [⟨"creditorAccount", "42", "10", "a\nb"⟩] = [] ∧
      (acceptedCred ⟨false, false, false, false, false, none, none⟩
          [⟨"creditorAccount", "42", "10", "a\nb"⟩]).map
            (fun r => (r.id, r.paymentLimit))
        = [("42", "10")] ∧
      ("42" : String) ≠ "" ∧
      runPipeline ⟨false, false, false, false, false, none, none⟩
        [⟨"creditorAccount", "42", "10", "a\nb"⟩]
        = .success (emitDocument
            (acceptedCred ⟨false, false, false, false, false, none, none⟩
              [⟨"creditorAccount", "42", "10", "a\nb"⟩])
            (acceptedFourth ⟨false, false, false, false, false, none, none⟩
              [⟨"creditorAccount", "42", "10", "a\nb"⟩])) ∧
      parseDocument (emitDocument
          (acceptedCred ⟨false, false, false, false, false, none, none⟩
            [⟨"creditorAccount", "42", "10", "a\nb"⟩])
          (acceptedFourth ⟨false, false, false, false, false, none, none⟩
            [⟨"creditorAccount", "42", "10", "a\nb"⟩]))
        = none) := by decide

/-- C7 (amended): for every zero-violation run whose emitted records (the
ones with a non-empty primary key) carry newline-free comments, parsing
the emitted document back recovers, per section and in order, exactly the
key and limit fields of the accepted records with a non-empty primary key
— in particular every such record is reproduced, also on runs that mix
empty-key and non-empty-key records; empty-key records are skipped. -/
theorem c7_roundtrip_skips_empty_keys (cfg : Config) (rows : List RawRow)
    (hv : violationList cfg rows = [])
    (hc : ∀ r ∈ acceptedCred cfg rows, r.id ≠ "" → '\n' ∉ r.comment.data)
    (hf : ∀ r ∈ acceptedFourth cfg rows, nzbnOf r ≠ "" → '\n' ∉ r.comment.data) :
    runPipeline cfg rows
      = .success (emitDocument (acceptedCred cfg rows) (acceptedFourth cfg rows)) ∧
    parseDocument (emitDocument (acceptedCred cfg rows) (acceptedFourth cfg rows))
      = some (((acceptedCred cfg rows).filter (fun r => r.id ≠ "")).map
                (fun r => (r.id, r.paymentLimit)),
              ((acceptedFourth cfg rows).filter (fun r => nzbnOf r ≠ "")).map
                (fun r => (nzbnOf r, r.paymentLimit))) ∧
    (∀ r ∈ acceptedCred cfg rows, r.id ≠ "" →
      (r.id, r.paymentLimit)
        ∈ ((acceptedCred cfg rows).filter (fun r => r.id ≠ "")).map
            (fun r => (r.id, r.paymentLimit))) ∧
    (∀ r ∈ acceptedFourth cfg rows, nzbnOf r ≠ "" →
      (nzbnOf r, r.paymentLimit)
        ∈ ((acceptedFourth cfg rows).filter (fun r => nzbnOf r ≠ "")).map
            (fun r => (nzbnOf r, r.paymentLimit))) :=
  ⟨by unfold runPipeline; rw [if_neg (by simp [hv])],
   parse_emitDocument_skip _ _ hc hf,
   fun r hr h => List.mem_map_of_mem _ (List.mem_filter.mpr ⟨hr, by simp [h]⟩),
   fun r hr h => List.mem_map_of_mem _ (List.mem_filter.mpr ⟨hr, by simp [h]⟩)⟩

theorem c7_roundtrip_skips_empty_keys_witness :
    violationList ⟨false, false, false, false, false, none, none⟩
      [⟨"creditorAccount", "", "5", ""⟩,
       ⟨"creditorAccount", "42", "10", "note"⟩,
       ⟨"fourthParty", "1234567890123", "7", ""⟩] = [] ∧
    ((acceptedCred ⟨false, false, false, false, false, none, none⟩
        [⟨"creditorAccount", "", "5", ""⟩,
         ⟨"creditorAccount", "42", "10", "note"⟩,
         ⟨"fourthParty", "1234567890123", "7", ""⟩]).filter
          (fun r => r.id ≠ "")).map (fun r => (r.id, r.paymentLimit))
      = [("42", "10")] ∧
    parseDocument (emitDocument
        (acceptedCred ⟨false, false, false, false, false, none, none⟩
          [⟨"creditorAccount", "", "5", ""⟩,
           ⟨"creditorAccount", "42", "10", "note"⟩,
           ⟨"fourthParty", "1234567890123", "7", ""⟩])
        (acceptedFourth ⟨false, false, false, false, false, none, none⟩
          [⟨"creditorAccount", "", "5", ""⟩,
           ⟨"creditorAccount", "42", "10", "note"⟩,
           ⟨"fourthParty", "1234567890123", "7", ""⟩]))
      = some (((acceptedCred ⟨false, false, false, false, false, none, none⟩
          [⟨"creditorAccount", "", "5", ""⟩,
           ⟨"creditorAccount", "42", "10", "note"⟩,
           ⟨"fourthParty", "1234567890123", "7", ""⟩]).filter
            (fun r => r.id ≠ "")).map (fun r => (r.id, r.paymentLimit)),
        ((acceptedFourth ⟨false, false, false, false, false, none, none⟩
          [⟨"creditorAccount", "", "5", ""⟩,
           ⟨"creditorAccount", "42", "10", "note"⟩,
           ⟨"fourthParty", "1234567890123", "7", ""⟩]).filter
            (fun r => nzbnOf r ≠ "")).map (fun r => (nzbnOf r, r.paymentLimit))) :=
  ⟨by decide, by decide,
   (c7_roundtrip_skips_empty_keys ⟨false, false, false, false, false, none, none⟩
      [⟨"creditorAccount", "", "5", ""⟩,
       ⟨"creditorAccount", "42", "10", "note"⟩,
       ⟨"fourthParty", "1234567890123", "7", ""⟩]
      (by decide) (by decide) (by decide)).2.1⟩


theorem c2_blank_rule_and_type_violation_witness :
    (⟨2, "bogus", "", "x", "", ""⟩ : NRow)
        ∈ normalizedRows [⟨"bogus", "x", "", ""⟩] ∧
    mkError invalidTypeReason ⟨2, "bogus", "", "x", "", ""⟩
      ∈ violationList ⟨false, false, false, false, false, none, none⟩
        [⟨"bogus", "x", "", ""⟩] :=
  ⟨by decide,
    (c2_blank_rule_and_type_violation ⟨false, false, false, false, false, none, none⟩
      [⟨"bogus", "x", "", ""⟩] ⟨2, "bogus", "", "x", "", ""⟩
      (by decide)).2.2.2 rfl (by decide)⟩

end ExcelToYaml
